import Mathlib

/-!
# Verification of the ardu-r2r-midi-cv calibration engine

Shallow embedding of the calibration core of the `ardu-r2r-midi-cv`
firmware (`src/calibration.cpp`, `src/include/utils.h`,
`src/include/calibration.h`).  C++ `float` arithmetic is modelled over `ℚ`
(exact arithmetic; the specification itself states equalities only up to
floating rounding).  Unsigned machine integers are modelled as `ℕ` with
explicit `% 2^w` wherever overflow can occur in the source.  The
transcendental conversions (`logf`, `powf`) are modelled over `ℝ` where a
claim needs their exact mathematics, and as oracle parameters where the
state machine only pipes their results around.
-/

namespace ArduR2R

/-- `enum class CalibStage` from `calibration.h`. -/
inductive CalibStage : Type where
  | NONE
  | PREP_GAIN_1
  | GAIN_1
  | PREP_GAIN_2
  | GAIN_2
  | PREP_TUNER
  | TUNER
  | PREP_VCO_1
  | VCO_1
  | PREP_VCO_2
  | VCO_2
  | PREP_RESET_VCO_1
  | PREP_RESET_VCO_2
  | DONE
  | ERROR
  deriving DecidableEq, Repr

/-- `enum class CalibVcoStage` from `calibration.h`. -/
inductive CalibVcoStage : Type where
  | NONE
  | TUNER
  | LOWER
  | LINEARITY
  deriving DecidableEq, Repr

/-- `struct calibMatrix` from `calibration.h`: two `uint8_t` bounds and a
116-entry `uint16_t` table (`matrix[0]` is note 12, `matrix[115]` is note
127).  The table is modelled as a total function `ℕ → ℕ` so that the
out-of-bounds accesses the C++ source can perform remain expressible; the
valid indices are `0..115`. -/
structure CalibMatrix : Type where
  note_min : ℕ
  note_max : ℕ
  matrix : ℕ → ℕ

/-- 8-bit wrapping subtraction `(a - b)` for `a b < 256`, as performed by
`static_cast<uint8_t>(a - b)` in the source. -/
def u8sub (a b : ℕ) : ℕ := (a % 256 + 256 - b % 256) % 256

/-- 64-bit wrapping subtraction, as performed on `uint64_t` operands. -/
def u64sub (a b : ℕ) : ℕ := (a % 2 ^ 64 + 2 ^ 64 - b % 2 ^ 64) % 2 ^ 64

/-- `map_f` from `utils.h`: Arduino `map()` for floats. -/
def map_f (x in_min in_max out_min out_max : ℚ) : ℚ :=
  (x - in_min) * (out_max - out_min) / (in_max - in_min) + out_min

/-- `note_to_mv` from `utils.h`: direct MIDI-cents to millivolt
conversion on the 1 V/octave scale. -/
def note_to_mv (cents : ℕ) : ℚ :=
  if cents ≤ 1200 then 0
  else
    let octave : ℕ := cents / 1200
    let note : ℚ := (cents % 1200 : ℕ) / 1200
    1000 * (((octave - 1 : ℕ) : ℚ) + note)

/-- The "no calibration stored or currently in calibration" test of
`Calibration::note_to_mv_cal` (`calibration.cpp:125-127`). -/
def noCalibration (m : CalibMatrix) (stage : CalibStage) : Prop :=
  127 < m.note_min ∨ 127 < m.note_max ∨ m.note_min = 0 ∨
    m.note_max ≤ m.note_min ∨ stage = CalibStage.PREP_VCO_1 ∨
    stage = CalibStage.PREP_VCO_2 ∨ stage = CalibStage.VCO_1 ∨
    stage = CalibStage.VCO_2

instance (m : CalibMatrix) (stage : CalibStage) :
    Decidable (noCalibration m stage) := by
  unfold noCalibration; infer_instance

/-- The calibrated branch of `Calibration::note_to_mv_cal`
(`calibration.cpp:130-148`): pick the bracketing whole-note pair by the
source's `uint8_t` truncations and interpolate the two stored entries
with `map_f`.  The table address `note - 12` is taken with 8-bit
wraparound exactly as the unsigned subtraction in the source. -/
def interpCal (m : CalibMatrix) (cents : ℕ) : ℚ :=
  let note : ℚ := (cents : ℚ) / 100
  let w : ℕ := cents / 100
  let lo : ℕ := if m.note_max ≤ w then m.note_max - 1
    else if w ≤ m.note_min then m.note_min else w
  let hi : ℕ := if m.note_max ≤ w then m.note_max
    else if w ≤ m.note_min then m.note_min + 1 else w + 1
  map_f note (lo : ℚ) (hi : ℚ) (m.matrix (u8sub lo 12) : ℚ)
    (m.matrix (u8sub hi 12) : ℚ)

/-- `Calibration::note_to_mv_cal` (`calibration.cpp:117-149`).  `m1`/`m2`
are `calib_matrix_1`/`calib_matrix_2`; `channel = 0` selects `m1`, any
other value selects `m2`. -/
def note_to_mv_cal (m1 m2 : CalibMatrix) (stage : CalibStage)
    (channel : ℕ) (cents : ℕ) : ℚ :=
  if cents < 1200 ∨ 12700 < cents then 0
  else
    let m := if channel ≠ 0 then m2 else m1
    if noCalibration m stage then note_to_mv cents
    else interpCal m cents

/-- A channel table holding only the unset sentinels (`note_min = note_max
= 255`), as after a reset. -/
def mUncal : CalibMatrix := ⟨255, 255, fun _ => 0⟩

/-- The stored table of claim C1 taken literally: `note_min = 48`,
`note_max = 72`, `matrix[48] = 2500`, `matrix[72] = 5500`, all other
entries unused (zero). -/
def mC1 : CalibMatrix :=
  ⟨48, 72, fun i => if i = 48 then 2500 else if i = 72 then 5500 else 0⟩

/-- A stored table with bounds `[48, 72]` and entries `matrix[i] = 100*i`,
strictly increasing, for exercising the query path outside the calibrated
note range. -/
def mC3cex : CalibMatrix := ⟨48, 72, fun i => 100 * i⟩

/-- A "valid" stored table (bounds `48 < 50`, in range) whose entries are
not monotone: `matrix[36] = 1000`, `matrix[37] = 500`, `matrix[38] =
2000`. -/
def mC6cex : CalibMatrix :=
  ⟨48, 50, fun i => if i = 36 then 1000 else if i = 37 then 500 else 2000⟩

/-- Closed form of `note_to_mv`: on its supported domain the direct
formula is the linear map `5/6 * (cents - 1200)`. -/
theorem note_to_mv_eq_linear (c : ℕ) (h : 1200 ≤ c) :
    note_to_mv c = 5 / 6 * ((c : ℚ) - 1200) := by
  unfold note_to_mv
  rcases eq_or_lt_of_le h with h1 | h1
  · rw [if_pos (by omega)]
    rw [← h1]
    norm_num
  · rw [if_neg (by omega)]
    have hq : 1 ≤ c / 1200 := (Nat.one_le_div_iff (by norm_num)).mpr h
    have hc : 1200 * (c / 1200) + c % 1200 = c := Nat.div_add_mod c 1200
    have hc' : (1200 : ℚ) * ((c / 1200 : ℕ) : ℚ) + ((c % 1200 : ℕ) : ℚ)
        = (c : ℚ) := by exact_mod_cast hc
    push_cast [hq]
    linear_combination (5 / 6 : ℚ) * hc'

/-- On an in-range query with no valid calibration, `note_to_mv_cal`
falls back to the direct `note_to_mv` formula. -/
theorem note_to_mv_cal_uncal (m1 m2 : CalibMatrix) (stage : CalibStage)
    (channel cents : ℕ) (h1 : 1200 ≤ cents) (h2 : cents ≤ 12700)
    (hno : noCalibration (if channel ≠ 0 then m2 else m1) stage) :
    note_to_mv_cal m1 m2 stage channel cents = note_to_mv cents := by
  unfold note_to_mv_cal
  rw [if_neg (by omega)]
  exact if_pos hno

/-- On an in-range query with a valid calibration, `note_to_mv_cal` is
the interpolation branch on the selected channel matrix. -/
theorem note_to_mv_cal_calibrated (m1 m2 : CalibMatrix)
    (stage : CalibStage) (channel cents : ℕ) (h1 : 1200 ≤ cents)
    (h2 : cents ≤ 12700)
    (hno : ¬ noCalibration (if channel ≠ 0 then m2 else m1) stage) :
    note_to_mv_cal m1 m2 stage channel cents =
      interpCal (if channel ≠ 0 then m2 else m1) cents := by
  unfold note_to_mv_cal
  rw [if_neg (by omega)]
  exact if_neg hno

/-- `note_to_mv` written as the spec's direct formula
`1000 * (octave - 1 + fractional_note)`. -/
theorem note_to_mv_formula (c : ℕ) (h : 1200 ≤ c) :
    note_to_mv c =
      1000 * (((c / 1200 : ℕ) : ℚ) - 1 + ((c % 1200 : ℕ) : ℚ) / 1200) := by
  rw [note_to_mv_eq_linear c h]
  have hc : 1200 * (c / 1200) + c % 1200 = c := Nat.div_add_mod c 1200
  have hc' : (1200 : ℚ) * ((c / 1200 : ℕ) : ℚ) + ((c % 1200 : ℕ) : ℚ)
      = (c : ℚ) := by exact_mod_cast hc
  linear_combination (-(5 / 6) : ℚ) * hc'

/-- C1, literal reading refuted: with the stored table of the claim
(`note_min = 48`, `note_max = 72`, `matrix[48] = 2500`, `matrix[72] =
5500`, all other entries zero), `note_to_mv_cal(1, 6000)` does not return
the claimed `3750` mV — the code interpolates between the adjacent
whole-note entries `matrix[48]` and `matrix[49]` (notes 60 and 61), not
across the whole calibrated span, and at exactly note 60 it returns
`matrix[48] = 2500`. -/
theorem C1_counterexample :
    ¬ note_to_mv_cal mUncal mC1 CalibStage.NONE 1 6000 = 3750 := by
  have hval : note_to_mv_cal mUncal mC1 CalibStage.NONE 1 6000 = 2500 := by
    rw [note_to_mv_cal_calibrated mUncal mC1 CalibStage.NONE 1 6000
      (by omega) (by omega) (by decide)]
    norm_num [interpCal, map_f, u8sub, mC1]
  rw [hval]
  norm_num

/-- C1 amended: with channel 1 uncalibrated, `note_to_mv_cal(1, 6000)`
returns `4000` mV; with the claim's stored table it returns `matrix[48] =
2500` mV, the stored entry bracketing note 60 (interpolation is piecewise
between adjacent whole-note entries). -/
theorem C1_amended_end_to_end :
    note_to_mv_cal mUncal mUncal CalibStage.NONE 1 6000 = 4000 ∧
      note_to_mv_cal mUncal mC1 CalibStage.NONE 1 6000 = 2500 := by
  constructor
  · norm_num [note_to_mv_cal, noCalibration, note_to_mv, mUncal]
  · rw [note_to_mv_cal_calibrated mUncal mC1 CalibStage.NONE 1 6000
      (by omega) (by omega) (by decide)]
    norm_num [interpCal, map_f, u8sub, mC1]

/-- C5: with no valid stored calibration for the selected channel,
`note_to_mv_cal` returns 0 outside `[1200, 12700]`, equals the direct
formula `1000 * (octave - 1 + fractional_note)` inside it, and is
monotonically non-decreasing in cents over `[1200, 12700]`. -/
theorem C5_uncalibrated_direct_formula (m1 m2 : CalibMatrix)
    (stage : CalibStage) (channel : ℕ)
    (hno : noCalibration (if channel ≠ 0 then m2 else m1) stage) :
    (∀ cents, cents < 1200 ∨ 12700 < cents →
        note_to_mv_cal m1 m2 stage channel cents = 0) ∧
    (∀ cents, 1200 ≤ cents → cents ≤ 12700 →
        note_to_mv_cal m1 m2 stage channel cents =
          1000 * (((cents / 1200 : ℕ) : ℚ) - 1 +
            ((cents % 1200 : ℕ) : ℚ) / 1200)) ∧
    (∀ c1 c2, 1200 ≤ c1 → c1 ≤ c2 → c2 ≤ 12700 →
        note_to_mv_cal m1 m2 stage channel c1 ≤
          note_to_mv_cal m1 m2 stage channel c2) := by
  refine ⟨fun c hc => ?_, fun c h1 h2 => ?_, fun c1 c2 h1 h12 h2 => ?_⟩
  · unfold note_to_mv_cal
    rw [if_pos hc]
  · rw [note_to_mv_cal_uncal m1 m2 stage channel c h1 h2 hno]
    exact note_to_mv_formula c h1
  · rw [note_to_mv_cal_uncal m1 m2 stage channel c1 h1 (h12.trans h2) hno,
      note_to_mv_cal_uncal m1 m2 stage channel c2 (h1.trans h12) h2 hno,
      note_to_mv_eq_linear c1 h1, note_to_mv_eq_linear c2 (h1.trans h12)]
    have : (c1 : ℚ) ≤ (c2 : ℚ) := by exact_mod_cast h12
    linarith

/-- Witness for C5 at a concrete input: channel 0 with sentinel bounds,
query 600 (below range) returns 0 and query 6000 returns 4000. -/
theorem C5_uncalibrated_direct_formula_witness :
    noCalibration mUncal CalibStage.NONE ∧
      note_to_mv_cal mUncal mUncal CalibStage.NONE 0 600 = 0 :=
  ⟨by decide,
    (C5_uncalibrated_direct_formula mUncal mUncal CalibStage.NONE 0
      (by decide)).1 600 (by omega)⟩

/-- The 8-bit table address `a - 12` is the plain subtraction whenever
`12 ≤ a ≤ 255`. -/
theorem u8sub_twelve (a : ℕ) (h1 : 12 ≤ a) (h2 : a ≤ 255) :
    u8sub a 12 = a - 12 := by
  unfold u8sub
  omega

/-- Segment evaluation: for a query whose truncated note `w = cents/100`
lies strictly inside `[note_min, note_max)`, the interpolation uses the
pair of entries at addresses `w - 12` and `w - 11`. -/
theorem interpCal_seg (m : CalibMatrix) (cents : ℕ)
    (h12 : 12 ≤ m.note_min) (hmax : m.note_max ≤ 127)
    (hw1 : m.note_min ≤ cents / 100) (hw2 : cents / 100 < m.note_max) :
    interpCal m cents =
      (m.matrix (cents / 100 - 12) : ℚ) +
        ((cents : ℚ) / 100 - ((cents / 100 : ℕ) : ℚ)) *
          ((m.matrix (cents / 100 - 11) : ℚ) -
            (m.matrix (cents / 100 - 12) : ℚ)) := by
  simp only [interpCal]
  have hlo : (if m.note_max ≤ cents / 100 then m.note_max - 1
      else if cents / 100 ≤ m.note_min then m.note_min else cents / 100)
      = cents / 100 := by
    rw [if_neg (by omega)]
    by_cases h : cents / 100 ≤ m.note_min
    · rw [if_pos h]; omega
    · rw [if_neg h]
  have hhi : (if m.note_max ≤ cents / 100 then m.note_max
      else if cents / 100 ≤ m.note_min then m.note_min + 1
      else cents / 100 + 1) = cents / 100 + 1 := by
    rw [if_neg (by omega)]
    by_cases h : cents / 100 ≤ m.note_min
    · rw [if_pos h]; omega
    · rw [if_neg h]
  rw [hlo, hhi, u8sub_twelve (cents / 100) (by omega) (by omega),
    u8sub_twelve (cents / 100 + 1) (by omega) (by omega)]
  have hidx : cents / 100 + 1 - 12 = cents / 100 - 11 := by omega
  rw [hidx]
  unfold map_f
  push_cast
  ring

/-- Segment bounds: inside a segment with non-decreasing pair of entries,
the interpolated value lies between the two entries. -/
theorem interpCal_seg_bounds (m : CalibMatrix) (cents : ℕ)
    (h12 : 12 ≤ m.note_min) (hmax : m.note_max ≤ 127)
    (hw1 : m.note_min ≤ cents / 100) (hw2 : cents / 100 < m.note_max)
    (hpair : m.matrix (cents / 100 - 12) ≤ m.matrix (cents / 100 - 11)) :
    (m.matrix (cents / 100 - 12) : ℚ) ≤ interpCal m cents ∧
      interpCal m cents ≤ (m.matrix (cents / 100 - 11) : ℚ) := by
  rw [interpCal_seg m cents h12 hmax hw1 hw2]
  have hmul := Nat.div_mul_le_self cents 100
  have hlt : cents < (cents / 100 + 1) * 100 := by omega
  have hfrac0 : (0 : ℚ) ≤ (cents : ℚ) / 100 - ((cents / 100 : ℕ) : ℚ) := by
    have : ((cents / 100 : ℕ) : ℚ) * 100 ≤ (cents : ℚ) := by exact_mod_cast hmul
    linarith
  have hfrac1 : (cents : ℚ) / 100 - ((cents / 100 : ℕ) : ℚ) ≤ 1 := by
    have : (cents : ℚ) < (((cents / 100 : ℕ) : ℚ) + 1) * 100 := by
      exact_mod_cast hlt
    linarith
  have hab : (m.matrix (cents / 100 - 12) : ℚ) ≤
      (m.matrix (cents / 100 - 11) : ℚ) := by exact_mod_cast hpair
  constructor
  · nlinarith
  · nlinarith

/-- Endpoint evaluation: the query at exactly `note_max` returns the
stored entry `matrix[note_max - 12]`. -/
theorem interpCal_end (m : CalibMatrix) (h12 : 12 ≤ m.note_min)
    (hlt : m.note_min < m.note_max) (hmax : m.note_max ≤ 127) :
    interpCal m (100 * m.note_max) = (m.matrix (m.note_max - 12) : ℚ) := by
  simp only [interpCal]
  have hw : 100 * m.note_max / 100 = m.note_max := by omega
  rw [hw, if_pos (le_refl m.note_max), if_pos (le_refl m.note_max),
    u8sub_twelve (m.note_max - 1) (by omega) (by omega),
    u8sub_twelve m.note_max (by omega) (by omega)]
  have hidx : m.note_max - 1 - 12 = m.note_max - 13 := by omega
  rw [hidx]
  unfold map_f
  have h1 : ((m.note_max - 1 : ℕ) : ℚ) = (m.note_max : ℚ) - 1 := by
    have : (1 : ℕ) ≤ m.note_max := by omega
    push_cast [this]
    ring
  rw [h1]
  push_cast
  field_simp

/-- Whole-note exactness: a query at `100 * n` with
`note_min ≤ n ≤ note_max` returns the stored entry `matrix[n - 12]`
exactly. -/
theorem interpCal_whole (m : CalibMatrix) (n : ℕ) (h12 : 12 ≤ m.note_min)
    (hlt : m.note_min < m.note_max) (hmax : m.note_max ≤ 127)
    (h1 : m.note_min ≤ n) (h2 : n ≤ m.note_max) :
    interpCal m (100 * n) = (m.matrix (n - 12) : ℚ) := by
  rcases eq_or_lt_of_le h2 with he | hn
  · rw [he]
    exact interpCal_end m h12 hlt hmax
  · have hw : 100 * n / 100 = n := by omega
    rw [interpCal_seg m (100 * n) h12 hmax (by omega) (by omega), hw]
    have : ((100 * n : ℕ) : ℚ) / 100 - (n : ℚ) = 0 := by
      push_cast
      ring
    rw [this]
    ring

/-- Chaining adjacent-pair monotonicity of the stored entries across the
calibrated index range. -/
theorem matrix_mono (m : CalibMatrix) (h12 : 12 ≤ m.note_min)
    (hm : ∀ i, m.note_min ≤ i → i < m.note_max →
      m.matrix (i - 12) ≤ m.matrix (i - 11)) :
    ∀ i j, m.note_min ≤ i → i ≤ j → j ≤ m.note_max →
      m.matrix (i - 12) ≤ m.matrix (j - 12) := by
  intro i j hi hij
  induction j, hij using Nat.le_induction with
  | base => intro _; exact le_refl _
  | succ k hk ih =>
    intro hj
    have h1 : m.matrix (i - 12) ≤ m.matrix (k - 12) := ih (by omega)
    have h2 : m.matrix (k - 12) ≤ m.matrix (k - 11) :=
      hm k (by omega) (by omega)
    have hidx : k - 11 = k + 1 - 12 := by omega
    rw [hidx] at h2
    exact le_trans h1 h2

/-- Piecewise-linear interpolation over non-decreasing entries is
monotone on `[100 * note_min, 100 * note_max]`. -/
theorem interpCal_mono (m : CalibMatrix) (h12 : 12 ≤ m.note_min)
    (hlt : m.note_min < m.note_max) (hmax : m.note_max ≤ 127)
    (hm : ∀ i, m.note_min ≤ i → i < m.note_max →
      m.matrix (i - 12) ≤ m.matrix (i - 11)) :
    ∀ c1 c2, 100 * m.note_min ≤ c1 → c1 ≤ c2 → c2 ≤ 100 * m.note_max →
      interpCal m c1 ≤ interpCal m c2 := by
  intro c1 c2 h1 h12' h2
  have hw1min : m.note_min ≤ c1 / 100 := by omega
  by_cases hend2 : c2 = 100 * m.note_max
  · subst hend2
    rw [interpCal_end m h12 hlt hmax]
    by_cases hend1 : c1 = 100 * m.note_max
    · subst hend1
      rw [interpCal_end m h12 hlt hmax]
    · have hw1 : c1 / 100 < m.note_max := by omega
      have hb := interpCal_seg_bounds m c1 h12 hmax hw1min hw1
        (hm (c1 / 100) hw1min hw1)
      have hmm : m.matrix (c1 / 100 + 1 - 12) ≤ m.matrix (m.note_max - 12) :=
        matrix_mono m h12 hm (c1 / 100 + 1) m.note_max (by omega) (by omega)
          (le_refl _)
      have hidx : c1 / 100 + 1 - 12 = c1 / 100 - 11 := by omega
      rw [hidx] at hmm
      have hmm' : (m.matrix (c1 / 100 - 11) : ℚ) ≤
          (m.matrix (m.note_max - 12) : ℚ) := by exact_mod_cast hmm
      exact le_trans hb.2 hmm'
  · have h2' : c2 < 100 * m.note_max := lt_of_le_of_ne h2 hend2
    have hw2 : c2 / 100 < m.note_max := by omega
    have hw2min : m.note_min ≤ c2 / 100 := by omega
    have hw1 : c1 / 100 < m.note_max := by omega
    by_cases heq : c1 / 100 = c2 / 100
    · rw [interpCal_seg m c1 h12 hmax hw1min hw1,
        interpCal_seg m c2 h12 hmax hw2min hw2, heq]
      have hab : (m.matrix (c2 / 100 - 12) : ℚ) ≤
          (m.matrix (c2 / 100 - 11) : ℚ) := by
        exact_mod_cast hm (c2 / 100) hw2min hw2
      have hcc : (c1 : ℚ) ≤ (c2 : ℚ) := by exact_mod_cast h12'
      nlinarith
    · have hlt12 : c1 / 100 < c2 / 100 :=
        lt_of_le_of_ne (Nat.div_le_div_right h12') heq
      have hb1 := interpCal_seg_bounds m c1 h12 hmax hw1min hw1
        (hm (c1 / 100) hw1min hw1)
      have hb2 := interpCal_seg_bounds m c2 h12 hmax hw2min hw2
        (hm (c2 / 100) hw2min hw2)
      have hmm : m.matrix (c1 / 100 + 1 - 12) ≤ m.matrix (c2 / 100 - 12) :=
        matrix_mono m h12 hm (c1 / 100 + 1) (c2 / 100) (by omega) (by omega)
          (by omega)
      have hidx : c1 / 100 + 1 - 12 = c1 / 100 - 11 := by omega
      rw [hidx] at hmm
      have hmm' : (m.matrix (c1 / 100 - 11) : ℚ) ≤
          (m.matrix (c2 / 100 - 12) : ℚ) := by exact_mod_cast hmm
      exact le_trans hb1.2 (le_trans hmm' hb2.1)

/-- C6, literal reading refuted: a stored table that passes the code's
validity test (`note_min = 48 < note_max = 50`, bounds in range) but
whose entries are not monotone (`matrix[36] = 1000`, `matrix[37] = 500`)
makes `note_to_mv_cal` decrease between the in-range queries 4800 and
4900 (values 1000 and 500 mV). -/
theorem C6_counterexample :
    ¬ note_to_mv_cal mC6cex mUncal CalibStage.NONE 0 4800 ≤
        note_to_mv_cal mC6cex mUncal CalibStage.NONE 0 4900 := by
  have hv1 : note_to_mv_cal mC6cex mUncal CalibStage.NONE 0 4800 = 1000 := by
    rw [note_to_mv_cal_calibrated mC6cex mUncal CalibStage.NONE 0 4800
      (by omega) (by omega) (by decide)]
    norm_num [interpCal, map_f, u8sub, mC6cex]
  have hv2 : note_to_mv_cal mC6cex mUncal CalibStage.NONE 0 4900 = 500 := by
    rw [note_to_mv_cal_calibrated mC6cex mUncal CalibStage.NONE 0 4900
      (by omega) (by omega) (by decide)]
    norm_num [interpCal, map_f, u8sub, mC6cex]
  rw [hv1, hv2]
  norm_num

/-- C6 amended: for a channel whose selected matrix passes the code's
validity test and additionally has `12 ≤ note_min` (always true of
sweep-produced tables) the interpolation returns exactly the stored entry
at every whole note of `[note_min, note_max]`, and it is monotonically
non-decreasing on `[note_min*100, note_max*100]` provided the stored
entries are non-decreasing over the calibrated index range (the property
the sweep establishes, but which the code does not re-check on load). -/
theorem C6_amended_monotone_and_exact (m1 m2 : CalibMatrix)
    (stage : CalibStage) (channel : ℕ) (m : CalibMatrix)
    (hsel : m = if channel ≠ 0 then m2 else m1)
    (hno : ¬ noCalibration m stage) (h12 : 12 ≤ m.note_min) :
    ((∀ i, m.note_min ≤ i → i < m.note_max →
        m.matrix (i - 12) ≤ m.matrix (i - 11)) →
      ∀ c1 c2, 100 * m.note_min ≤ c1 → c1 ≤ c2 → c2 ≤ 100 * m.note_max →
        note_to_mv_cal m1 m2 stage channel c1 ≤
          note_to_mv_cal m1 m2 stage channel c2) ∧
    (∀ n, m.note_min ≤ n → n ≤ m.note_max →
      note_to_mv_cal m1 m2 stage channel (100 * n) =
        (m.matrix (n - 12) : ℚ)) := by
  have hno' : ¬ noCalibration (if channel ≠ 0 then m2 else m1) stage := by
    rw [← hsel]; exact hno
  have hb : m.note_max ≤ 127 ∧ m.note_min < m.note_max := by
    unfold noCalibration at hno
    push_neg at hno
    exact ⟨hno.2.1, hno.2.2.2.1⟩
  constructor
  · intro hm c1 c2 h1 h12' h2
    rw [note_to_mv_cal_calibrated m1 m2 stage channel c1
        (by omega) (by omega) hno',
      note_to_mv_cal_calibrated m1 m2 stage channel c2
        (by omega) (by omega) hno', ← hsel]
    exact interpCal_mono m h12 hb.2 hb.1 hm c1 c2 h1 h12' h2
  · intro n hn1 hn2
    rw [note_to_mv_cal_calibrated m1 m2 stage channel (100 * n)
        (by omega) (by omega) hno', ← hsel]
    exact interpCal_whole m n h12 hb.2 hb.1 hn1 hn2

/-- Witness for C6 amended on a concrete monotone table: channel 0 with
entries `matrix[i] = 100*i` over notes `[48, 72]` returns the stored
entry `matrix[48] = 4800` at the whole-note query `100 * 60`. -/
theorem C6_amended_monotone_and_exact_witness :
    note_to_mv_cal mC3cex mUncal CalibStage.NONE 0 (100 * 60) =
      ((mC3cex.matrix (60 - 12) : ℕ) : ℚ) :=
  (C6_amended_monotone_and_exact mC3cex mUncal CalibStage.NONE 0 mC3cex
    rfl (by decide) (by decide)).2 60 (by decide) (by decide)

/-- C3, literal reading refuted: with a valid, strictly increasing
stored table over notes `[48, 72]` (`matrix[i] = 100*i`), the in-range
query 12700 is not clamped: the code extrapolates along the last segment
and returns 11500 mV, far above the stored `matrix[note_max - 12] = 6000`
mV. -/
theorem C3_counterexample :
    ¬ note_to_mv_cal mC3cex mUncal CalibStage.NONE 0 12700 ≤
        (mC3cex.matrix (mC3cex.note_max - 12) : ℚ) := by
  have hv : note_to_mv_cal mC3cex mUncal CalibStage.NONE 0 12700 = 11500 := by
    rw [note_to_mv_cal_calibrated mC3cex mUncal CalibStage.NONE 0 12700
      (by omega) (by omega) (by decide)]
    norm_num [interpCal, map_f, u8sub, mC3cex]
  rw [hv]
  norm_num [mC3cex]

/-- C3 amended: the clamping applies to the bracketing index pair, not to
the fractional query itself, so only queries inside
`[note_min*100, note_max*100]` are guaranteed to stay between the stored
endpoint entries (given non-decreasing entries and `12 ≤ note_min`);
queries outside that range are linearly extrapolated along the first or
last stored segment and may fall outside the endpoint values. -/
theorem C3_amended_interp_bounds (m1 m2 : CalibMatrix)
    (stage : CalibStage) (channel : ℕ) (m : CalibMatrix)
    (hsel : m = if channel ≠ 0 then m2 else m1)
    (hno : ¬ noCalibration m stage) (h12 : 12 ≤ m.note_min)
    (hm : ∀ i, m.note_min ≤ i → i < m.note_max →
      m.matrix (i - 12) ≤ m.matrix (i - 11)) :
    ∀ cents, 100 * m.note_min ≤ cents → cents ≤ 100 * m.note_max →
      (m.matrix (m.note_min - 12) : ℚ) ≤
          note_to_mv_cal m1 m2 stage channel cents ∧
        note_to_mv_cal m1 m2 stage channel cents ≤
          (m.matrix (m.note_max - 12) : ℚ) := by
  intro cents h1 h2
  have hmono := (C6_amended_monotone_and_exact m1 m2 stage channel m hsel
    hno h12).1 hm
  have hexact := (C6_amended_monotone_and_exact m1 m2 stage channel m hsel
    hno h12).2
  have hb : m.note_min < m.note_max := by
    unfold noCalibration at hno
    push_neg at hno
    exact hno.2.2.2.1
  constructor
  · have := hmono (100 * m.note_min) cents (le_refl _) h1 h2
    rwa [hexact m.note_min (le_refl _) (by omega)] at this
  · have := hmono cents (100 * m.note_max) h1 h2 (le_refl _)
    rwa [hexact m.note_max (by omega) (le_refl _)] at this

/-- Witness for C3 amended: on the concrete increasing table, the
in-range query 5000 stays between `matrix[36] = 3600` and
`matrix[60] = 6000`. -/
theorem C3_amended_interp_bounds_witness :
    (mC3cex.matrix (mC3cex.note_min - 12) : ℚ) ≤
        note_to_mv_cal mC3cex mUncal CalibStage.NONE 0 5000 ∧
      note_to_mv_cal mC3cex mUncal CalibStage.NONE 0 5000 ≤
        (mC3cex.matrix (mC3cex.note_max - 12) : ℚ) :=
  C3_amended_interp_bounds mC3cex mUncal CalibStage.NONE 0 mC3cex rfl
    (by decide) (by decide)
    (by
      intro i h1 h2
      simp only [mC3cex]
      omega)
    5000 (by decide) (by decide)

/-- `roundf`: round half away from zero, as the C library function used
by `hz_to_cents_deviation`. -/
noncomputable def roundHalfAway (x : ℝ) : ℤ :=
  if x < 0 then -round (-x) else round x

open scoped Classical in
/-- `hz_to_cents_deviation` from `utils.h`: cents deviation between two
frequencies, saturating to `INT16_MAX`/`INT16_MIN` on non-positive
inputs and clamping the result to the `int16_t` range.  The `float`
logarithm `logf(measured/target) / logf(2)` is modelled as the exact
real-valued `logb 2`. -/
noncomputable def hz_to_cents_deviation (target measured : ℚ) : ℤ :=
  if target ≤ 0 then 32767
  else if measured ≤ 0 then -32768
  else
    let cents : ℝ := 1200 * Real.logb 2 ((measured : ℝ) / (target : ℝ))
    if (32767 : ℝ) ≤ cents then 32767
    else if cents ≤ (-32768 : ℝ) then -32768
    else roundHalfAway cents

/-- C9: `hz_to_cents_deviation` returns the saturated maximum 32767 when
`target ≤ 0`, the saturated minimum -32768 when `target > 0` and
`measured ≤ 0`, always stays within the `int16_t` range, and on the
claim's concrete inputs returns `deviation(440,440) = 0`,
`deviation(440,880) = 1200` and `deviation(440,220) = -1200`. -/
theorem C9_deviation_saturation_and_values :
    hz_to_cents_deviation 440 440 = 0 ∧
    hz_to_cents_deviation 440 880 = 1200 ∧
    hz_to_cents_deviation 440 220 = -1200 ∧
    (∀ t m : ℚ, t ≤ 0 → hz_to_cents_deviation t m = 32767) ∧
    (∀ t m : ℚ, 0 < t → m ≤ 0 → hz_to_cents_deviation t m = -32768) ∧
    (∀ t m : ℚ, -32768 ≤ hz_to_cents_deviation t m ∧
      hz_to_cents_deviation t m ≤ 32767) := by
  refine ⟨?_, ?_, ?_, ?_, ?_, ?_⟩
  · simp only [hz_to_cents_deviation]
    norm_num [roundHalfAway]
  · simp only [hz_to_cents_deviation]
    have hr : (((880 : ℚ) : ℝ)) / (((440 : ℚ) : ℝ)) = 2 := by norm_num
    rw [if_neg (by norm_num), if_neg (by norm_num), hr]
    norm_num [Real.logb_self_eq_one, roundHalfAway]
  · simp only [hz_to_cents_deviation]
    have hr : (((220 : ℚ) : ℝ)) / (((440 : ℚ) : ℝ)) = 2⁻¹ := by norm_num
    rw [if_neg (by norm_num), if_neg (by norm_num), hr, Real.logb_inv]
    norm_num [Real.logb_self_eq_one, roundHalfAway]
  · intro t m h
    simp only [hz_to_cents_deviation]
    rw [if_pos h]
  · intro t m ht hm
    simp only [hz_to_cents_deviation]
    rw [if_neg (by linarith), if_pos hm]
  · intro t m
    simp only [hz_to_cents_deviation]
    by_cases h1 : t ≤ 0
    · rw [if_pos h1]; omega
    · rw [if_neg h1]
      by_cases h2 : m ≤ 0
      · rw [if_pos h2]; omega
      · rw [if_neg h2]
        set c : ℝ := 1200 * Real.logb 2 ((m : ℝ) / (t : ℝ)) with hc
        by_cases h3 : (32767 : ℝ) ≤ c
        · rw [if_pos h3]; omega
        · rw [if_neg h3]
          by_cases h4 : c ≤ (-32768 : ℝ)
          · rw [if_pos h4]; omega
          · rw [if_neg h4]
            push_neg at h3 h4
            unfold roundHalfAway
            by_cases h5 : c < 0
            · rw [if_pos h5]
              have hb1 : round (-c) ≤ -c + 1 / 2 := round_le_add_half (-c)
              have hb2 : (-c : ℝ) - 1 / 2 < round (-c) := sub_half_lt_round (-c)
              constructor
              · have : ((round (-c) : ℤ) : ℝ) < 32768 + 1 := by linarith
                have h6 : round (-c) < 32769 := by exact_mod_cast this
                omega
              · have : (-1 : ℝ) < ((round (-c) : ℤ) : ℝ) := by linarith
                have h7 : (-1 : ℤ) < round (-c) := by exact_mod_cast this
                omega
            · rw [if_neg h5]
              push_neg at h5
              have hb1 : round c ≤ c + 1 / 2 := round_le_add_half c
              have hb2 : (c : ℝ) - 1 / 2 < round c := sub_half_lt_round c
              constructor
              · have : (-32768 : ℝ) ≤ (round c : ℝ) := by linarith
                exact_mod_cast this
              · have : (round c : ℝ) < 32767 + 1 := by linarith
                have h7 : round c < 32768 := by exact_mod_cast this
                omega

/-- Result of one call to `Calibration::btn` (`calibration.cpp:395-426`):
the updated `btn_timer`/`btn_handled` pair and which of the two press
events fired during the call. -/
structure BtnStep : Type where
  timer : ℕ
  handled : Bool
  short : Bool
  long : Bool
  deriving DecidableEq, Repr

/-- `Calibration::btn` (`calibration.cpp:395-426`) with
`BTN_DEBOUNCE = 240` and `BTN_LONG_PRESS = 1000` from `calibration.h`:
clamp the timer on `millis()` overflow, latch the press start, classify a
release after the debounce time as a short press unless already handled,
and classify a continued press past the long-press time as a long press,
firing at most once per press. -/
def btn_core (timer0 : ℕ) (handled0 : Bool) (time : ℕ) (pressed : Bool) :
    BtnStep :=
  let timer1 : ℕ := if time < timer0 then time else timer0
  let timer2 : ℕ := if pressed ∧ timer1 = 0 then time else timer1
  let handled1 : Bool := if pressed ∧ timer1 = 0 then false else handled0
  if ¬pressed ∧ timer2 ≠ 0 ∧ 240 ≤ time - timer2 then
    if ¬handled1 then ⟨0, true, true, false⟩
    else ⟨0, handled1, false, false⟩
  else if pressed ∧ ¬handled1 ∧ timer2 ≠ 0 ∧ 1000 ≤ time - timer2 then
    ⟨timer2, true, false, true⟩
  else ⟨timer2, handled1, false, false⟩

/-- Accumulated result of running `btn` over a sequence of samples:
final timer/handled state plus how many short and long press events
fired. -/
structure BtnCounts : Type where
  timer : ℕ
  handled : Bool
  shorts : ℕ
  longs : ℕ
  deriving DecidableEq, Repr

/-- Run `btn` over a list of `(millis, pressed)` samples, counting fired
events. -/
def btnRun (timer : ℕ) (handled : Bool) :
    List (ℕ × Bool) → BtnCounts
  | [] => ⟨timer, handled, 0, 0⟩
  | (t, p) :: rest =>
    let r := btn_core timer handled t p
    let k := btnRun r.timer r.handled rest
    ⟨k.timer, k.handled, (if r.short then 1 else 0) + k.shorts,
      (if r.long then 1 else 0) + k.longs⟩

theorem btn_core_press_idle (h : Bool) (t : ℕ) :
    btn_core 0 h t true = ⟨t, false, false, false⟩ := by
  unfold btn_core
  split_ifs <;> simp_all

theorem btn_core_release_idle (h : Bool) (t : ℕ) :
    btn_core 0 h t false = ⟨0, h, false, false⟩ := by
  unfold btn_core
  split_ifs <;> simp_all

theorem btn_core_press_wait (t0 t : ℕ) (h1 : t0 ≠ 0) (h2 : t0 ≤ t)
    (h3 : t < t0 + 1000) :
    btn_core t0 false t true = ⟨t0, false, false, false⟩ := by
  unfold btn_core
  split_ifs <;> simp_all <;> omega

theorem btn_core_press_long (t0 t : ℕ) (h1 : t0 ≠ 0) (h2 : t0 + 1000 ≤ t) :
    btn_core t0 false t true = ⟨t0, true, false, true⟩ := by
  unfold btn_core
  split_ifs <;> simp_all <;> omega

theorem btn_core_press_handled (t0 t : ℕ) (h1 : t0 ≠ 0) (h2 : t0 ≤ t) :
    btn_core t0 true t true = ⟨t0, true, false, false⟩ := by
  unfold btn_core
  split_ifs <;> simp_all <;> omega

theorem btn_core_release_wait (h : Bool) (t0 t : ℕ) (h1 : t0 ≠ 0)
    (h2 : t0 ≤ t) (h3 : t < t0 + 240) :
    btn_core t0 h t false = ⟨t0, h, false, false⟩ := by
  unfold btn_core
  split_ifs <;> simp_all <;> omega

theorem btn_core_release_short (t0 t : ℕ) (h1 : t0 ≠ 0)
    (h2 : t0 + 240 ≤ t) :
    btn_core t0 false t false = ⟨0, true, true, false⟩ := by
  unfold btn_core
  split_ifs <;> simp_all <;> omega

theorem btn_core_release_handled (t0 t : ℕ) (h1 : t0 ≠ 0)
    (h2 : t0 + 240 ≤ t) :
    btn_core t0 true t false = ⟨0, true, false, false⟩ := by
  unfold btn_core
  split_ifs <;> simp_all <;> omega

/-- A sampled trace of one physical press: the button reads pressed at
`millis()` values `t0 :: ps`, then released at values `rs`. -/
def pressSamples (t0 : ℕ) (ps rs : List ℕ) : List (ℕ × Bool) :=
  (t0 :: ps).map (fun t => (t, true)) ++ rs.map (fun u => (u, false))

theorem btnRun_append (timer : ℕ) (handled : Bool) (l1 l2 : List (ℕ × Bool)) :
    btnRun timer handled (l1 ++ l2) =
      ⟨(btnRun (btnRun timer handled l1).timer (btnRun timer handled l1).handled l2).timer,
        (btnRun (btnRun timer handled l1).timer (btnRun timer handled l1).handled l2).handled,
        (btnRun timer handled l1).shorts +
          (btnRun (btnRun timer handled l1).timer (btnRun timer handled l1).handled l2).shorts,
        (btnRun timer handled l1).longs +
          (btnRun (btnRun timer handled l1).timer (btnRun timer handled l1).handled l2).longs⟩ := by
  induction l1 generalizing timer handled with
  | nil => simp [btnRun]
  | cons a rest ih =>
    obtain ⟨t, p⟩ := a
    simp only [List.cons_append, btnRun, List.append_eq]
    rw [ih]
    simp only [BtnCounts.mk.injEq]
    refine ⟨trivial, trivial, by omega, by omega⟩

theorem btnRun_press_handled (t0 : ℕ) (h1 : t0 ≠ 0) :
    ∀ ps : List ℕ, (∀ t ∈ ps, t0 ≤ t) →
      btnRun t0 true (ps.map (fun t => (t, true))) = ⟨t0, true, 0, 0⟩ := by
  intro ps
  induction ps with
  | nil => intro _; rfl
  | cons a rest ih =>
    intro hmem
    simp only [List.map_cons, btnRun]
    rw [btn_core_press_handled t0 a h1 (hmem a (by simp))]
    simp [ih (fun t ht => hmem t (by simp [ht]))]

theorem btnRun_press_wait (t0 : ℕ) (h1 : t0 ≠ 0) :
    ∀ ps : List ℕ, (∀ t ∈ ps, t0 ≤ t ∧ t < t0 + 1000) →
      btnRun t0 false (ps.map (fun t => (t, true))) = ⟨t0, false, 0, 0⟩ := by
  intro ps
  induction ps with
  | nil => intro _; rfl
  | cons a rest ih =>
    intro hmem
    simp only [List.map_cons, btnRun]
    rw [btn_core_press_wait t0 a h1 (hmem a (by simp)).1 (hmem a (by simp)).2]
    simp [ih (fun t ht => hmem t (by simp [ht]))]

theorem btnRun_press_long (t0 : ℕ) (h1 : t0 ≠ 0) :
    ∀ ps : List ℕ, (∀ t ∈ ps, t0 ≤ t) → (∃ t ∈ ps, t0 + 1000 ≤ t) →
      btnRun t0 false (ps.map (fun t => (t, true))) = ⟨t0, true, 0, 1⟩ := by
  intro ps
  induction ps with
  | nil =>
    intro _ hex
    obtain ⟨t, ht, _⟩ := hex
    exact absurd ht (List.not_mem_nil t)
  | cons a rest ih =>
    intro hmem hex
    simp only [List.map_cons, btnRun]
    by_cases ha : t0 + 1000 ≤ a
    · rw [btn_core_press_long t0 a h1 ha]
      simp [btnRun_press_handled t0 h1 rest
        (fun t ht => hmem t (by simp [ht]))]
    · rw [btn_core_press_wait t0 a h1 (hmem a (by simp)) (by omega)]
      obtain ⟨t, ht, hge⟩ := hex
      rcases List.mem_cons.mp ht with he | hr
      · exfalso
        rw [he] at hge
        exact ha hge
      · simp [ih (fun u hu => hmem u (by simp [hu])) ⟨t, hr, hge⟩]

theorem btnRun_release_idle (h : Bool) :
    ∀ rs : List ℕ, btnRun 0 h (rs.map (fun u => (u, false))) = ⟨0, h, 0, 0⟩ := by
  intro rs
  induction rs with
  | nil => rfl
  | cons a rest ih =>
    simp only [List.map_cons, btnRun]
    rw [btn_core_release_idle h a]
    simp [ih]

theorem btnRun_release_handled (t0 : ℕ) (h1 : t0 ≠ 0) :
    ∀ rs : List ℕ, (∀ u ∈ rs, t0 ≤ u) →
      (btnRun t0 true (rs.map (fun u => (u, false)))).shorts = 0 ∧
        (btnRun t0 true (rs.map (fun u => (u, false)))).longs = 0 := by
  intro rs
  induction rs with
  | nil => intro _; exact ⟨rfl, rfl⟩
  | cons a rest ih =>
    intro hmem
    simp only [List.map_cons, btnRun]
    by_cases ha : t0 + 240 ≤ a
    · rw [btn_core_release_handled t0 a h1 ha]
      simp [btnRun_release_idle true rest]
    · rw [btn_core_release_wait true t0 a h1 (hmem a (by simp)) (by omega)]
      have := ih (fun u hu => hmem u (by simp [hu]))
      simp [this.1, this.2]

theorem btnRun_release_short (t0 : ℕ) (h1 : t0 ≠ 0) :
    ∀ rs : List ℕ, (∀ u ∈ rs, t0 ≤ u) → (∃ u ∈ rs, t0 + 240 ≤ u) →
      (btnRun t0 false (rs.map (fun u => (u, false)))).shorts = 1 ∧
        (btnRun t0 false (rs.map (fun u => (u, false)))).longs = 0 := by
  intro rs
  induction rs with
  | nil =>
    intro _ hex
    obtain ⟨u, hu, _⟩ := hex
    exact absurd hu (List.not_mem_nil u)
  | cons a rest ih =>
    intro hmem hex
    simp only [List.map_cons, btnRun]
    by_cases ha : t0 + 240 ≤ a
    · rw [btn_core_release_short t0 a h1 ha]
      simp [btnRun_release_idle true rest]
    · rw [btn_core_release_wait false t0 a h1 (hmem a (by simp)) (by omega)]
      obtain ⟨u, hu, hge⟩ := hex
      rcases List.mem_cons.mp hu with he | hr
      · exfalso
        rw [he] at hge
        exact ha hge
      · have := ih (fun v hv => hmem v (by simp [hv])) ⟨u, hr, hge⟩
        simp [this.1, this.2]

/-- C8: over any sampled trace of one physical press (first pressed
sample at `t0 > 0`, further pressed samples `ps`, released samples `rs`,
all at or after `t0`): if some pressed sample reaches the 1000 ms
long-press threshold, exactly one long-press and no short-press event
fires; if all pressed samples stay below the threshold and sampling
continues past the 240 ms debounce time after the press started, exactly
one short-press and no long-press event fires. -/
theorem C8_button_press_classification (t0 : ℕ) (h : Bool)
    (ps rs : List ℕ) (h0 : 0 < t0) (hps : ∀ t ∈ ps, t0 ≤ t)
    (hrs : ∀ u ∈ rs, t0 ≤ u) :
    ((∃ t ∈ ps, t0 + 1000 ≤ t) →
      (btnRun 0 h (pressSamples t0 ps rs)).shorts = 0 ∧
        (btnRun 0 h (pressSamples t0 ps rs)).longs = 1) ∧
    ((∀ t ∈ ps, t < t0 + 1000) → (∃ u ∈ rs, t0 + 240 ≤ u) →
      (btnRun 0 h (pressSamples t0 ps rs)).shorts = 1 ∧
        (btnRun 0 h (pressSamples t0 ps rs)).longs = 0) := by
  have h1 : t0 ≠ 0 := by omega
  have hstep : btnRun 0 h (pressSamples t0 ps rs) =
      ⟨(btnRun t0 false (ps.map (fun t => (t, true)) ++
          rs.map (fun u => (u, false)))).timer,
        (btnRun t0 false (ps.map (fun t => (t, true)) ++
          rs.map (fun u => (u, false)))).handled,
        (btnRun t0 false (ps.map (fun t => (t, true)) ++
          rs.map (fun u => (u, false)))).shorts,
        (btnRun t0 false (ps.map (fun t => (t, true)) ++
          rs.map (fun u => (u, false)))).longs⟩ := by
    simp only [pressSamples, List.map_cons, List.cons_append, btnRun]
    rw [btn_core_press_idle h t0]
    simp
  constructor
  · intro hex
    rw [hstep, btnRun_append]
    rw [btnRun_press_long t0 h1 ps hps hex]
    have hrest := btnRun_release_handled t0 h1 rs hrs
    exact ⟨by simp [hrest.1], by simp [hrest.2]⟩
  · intro hall hex
    rw [hstep, btnRun_append]
    rw [btnRun_press_wait t0 h1 ps (fun t ht => ⟨hps t ht, hall t ht⟩)]
    have hrest := btnRun_release_short t0 h1 rs hrs hex
    exact ⟨by simp [hrest.1], by simp [hrest.2]⟩

/-- Witness for C8: a press sampled at 100, 600 and 1200 ms then released
at 1300 ms fires one long press and no short press; a press sampled at
100 and 200 ms then released at 250 and 400 ms fires one short press and
no long press. -/
theorem C8_button_press_classification_witness :
    ((btnRun 0 false (pressSamples 100 [600, 1200] [1300])).shorts = 0 ∧
      (btnRun 0 false (pressSamples 100 [600, 1200] [1300])).longs = 1) ∧
    ((btnRun 0 false (pressSamples 100 [200] [250, 400])).shorts = 1 ∧
      (btnRun 0 false (pressSamples 100 [200] [250, 400])).longs = 0) :=
  ⟨(C8_button_press_classification 100 false [600, 1200] [1300]
      (by decide) (by decide) (by decide)).1 (by decide),
    (C8_button_press_classification 100 false [200] [250, 400]
      (by decide) (by decide) (by decide)).2 (by decide) (by decide)⟩

/-- The mutable state of the `Calibration` singleton
(`calibration.h:186-221`), together with the DAC targets and the
non-volatile (EEPROM) copies of the persisted data. -/
structure CalibState : Type where
  active : Bool
  stage : CalibStage
  stage_vco : CalibVcoStage
  stage_last : CalibStage
  btn_timer : ℕ
  btn_handled : Bool
  time_last : ℕ
  frequency_raw : ℚ
  frequency : ℚ
  target_frequency : ℚ
  calib_matrix_1 : CalibMatrix
  calib_matrix_2 : CalibMatrix
  vco_calib_timer : ℕ
  mv_current : ℕ
  vco_cents_last : ℕ
  vco_cents_buffer : ℕ → ℕ
  vco_cents_buffer_counter : ℕ
  vco_note_closest_mv : ℕ
  address_last : ℕ
  tuner_deviation_cents : ℤ
  vco_calib_progress : ℚ
  gain_1_offset : ℚ
  gain_2_offset : ℚ
  dac_1 : ℚ
  dac_2 : ℚ
  eeprom_gain_1 : ℕ
  eeprom_gain_2 : ℕ
  eeprom_matrix_1 : CalibMatrix
  eeprom_matrix_2 : CalibMatrix

/-- The externally sampled values consumed by one `Calibration::loop`
iteration: `millis()`, `micros()`, the raw button level, the DIP switch
byte and the two `DAC::get_current_maximum` readings. -/
structure LoopInput : Type where
  time_ms : ℕ
  time_us : ℕ
  btn_pressed : Bool
  dip_states : ℕ
  dac_max_1 : ℚ
  dac_max_2 : ℚ

/-- Oracles standing for the transcendental `float` helpers of `utils.h`
(`hz_to_note`, `note_to_hz` and `hz_to_cents_deviation` as used on live
readings): the calibration state machine only pipes their results
around, so the claims below hold for every choice of these functions. -/
structure FloatOracles : Type where
  hzToNote : ℚ → ℕ
  noteToHz : ℕ → ℚ
  deviation : ℚ → ℚ → ℤ

/-- `set_dac_cv` (`calibration.cpp:46-51`): drive the chosen channel and
zero the other one. -/
def set_dac_cv (channel : ℕ) (mv : ℚ) (s : CalibState) : CalibState :=
  if channel = 0 then { s with dac_1 := mv, dac_2 := 0 }
  else { s with dac_1 := 0, dac_2 := mv }

/-- `dip_to_gain_offset` (`calibration.cpp:59-61`): bits 0-6 give the
magnitude in thousandths, bit 7 the sign. -/
def dip_to_gain_offset (dip : ℕ) : ℚ :=
  (dip % 128 : ℕ) / (if (dip / 128) % 2 = 1 then 1000 else -1000)

/-- `int16_t` reinterpretation of a `uint16_t` value. -/
def i16cast (x : ℕ) : ℤ := ((x : ℤ) % 65536 + 32768) % 65536 - 32768

/-- Store one entry of a calibration table. -/
def matrixWrite (m : CalibMatrix) (idx val : ℕ) : CalibMatrix :=
  { m with matrix := fun i => if i = idx then val else m.matrix i }

/-- The channel matrix selected inside `Calibration::vco`:
`calib_matrix_1` iff the stage is `VCO_1`. -/
def selMatrix (s : CalibState) : CalibMatrix :=
  if s.stage = CalibStage.VCO_1 then s.calib_matrix_1 else s.calib_matrix_2

/-- Replace the channel matrix selected inside `Calibration::vco`. -/
def withSelMatrix (s : CalibState) (m : CalibMatrix) : CalibState :=
  if s.stage = CalibStage.VCO_1 then { s with calib_matrix_1 := m }
  else { s with calib_matrix_2 := m }

/-- `Calibration::write_matrices` (`calibration.cpp:580-583`): persist
both channel tables to EEPROM. -/
def write_matrices (s : CalibState) : CalibState :=
  { s with eeprom_matrix_1 := s.calib_matrix_1,
           eeprom_matrix_2 := s.calib_matrix_2 }

/-- `Calibration::btn_short_press` (`calibration.cpp:431-471`): cycle
through the preparation stages (plus the `DONE` dispatch) and zero both
DAC outputs. -/
def btn_short_press (s : CalibState) : CalibState :=
  let s1 :=
    match s.stage with
    | CalibStage.PREP_GAIN_1 => { s with stage := CalibStage.PREP_GAIN_2 }
    | CalibStage.PREP_GAIN_2 => { s with stage := CalibStage.PREP_TUNER }
    | CalibStage.PREP_TUNER => { s with stage := CalibStage.PREP_VCO_1 }
    | CalibStage.PREP_VCO_1 => { s with stage := CalibStage.PREP_VCO_2 }
    | CalibStage.PREP_VCO_2 =>
      { s with stage := CalibStage.PREP_RESET_VCO_1 }
    | CalibStage.PREP_RESET_VCO_1 =>
      { s with stage := CalibStage.PREP_RESET_VCO_2 }
    | CalibStage.PREP_RESET_VCO_2 =>
      { s with stage := CalibStage.PREP_GAIN_1 }
    | CalibStage.DONE =>
      { s with stage := if s.stage_last = CalibStage.VCO_1 then
          CalibStage.PREP_VCO_2 else CalibStage.PREP_RESET_VCO_1 }
    | _ => s
  { s1 with dac_1 := 0, dac_2 := 0 }

/-- `Calibration::btn_long_press` (`calibration.cpp:476-537`).  Note the
two `PREP_RESET_VCO_x` cases transcribe the source's ternary
`stage == CalibStage::PREP_VCO_1 ? calib_matrix_1 : calib_matrix_2`,
whose condition is false in both reset stages, so both clear
`calib_matrix_2`. -/
def btn_long_press (dip : ℕ) (s : CalibState) : CalibState :=
  match s.stage with
  | CalibStage.PREP_GAIN_1 =>
    { s with dac_1 := 3000, dac_2 := 0, stage := CalibStage.GAIN_1 }
  | CalibStage.PREP_GAIN_2 =>
    { s with dac_1 := 0, dac_2 := 3000, stage := CalibStage.GAIN_2 }
  | CalibStage.GAIN_1 =>
    { s with eeprom_gain_1 := dip, dac_1 := 0, dac_2 := 0,
             stage := CalibStage.PREP_GAIN_2 }
  | CalibStage.GAIN_2 =>
    { s with eeprom_gain_2 := dip, dac_1 := 0, dac_2 := 0,
             stage := CalibStage.PREP_TUNER }
  | CalibStage.PREP_TUNER =>
    { s with tuner_deviation_cents := 0, frequency := 0,
             stage := CalibStage.TUNER }
  | CalibStage.TUNER =>
    { s with tuner_deviation_cents := 0, stage := CalibStage.PREP_VCO_1,
             dac_1 := 0, dac_2 := 0 }
  | CalibStage.PREP_VCO_1 =>
    { s with
        calib_matrix_1 :=
          { s.calib_matrix_1 with note_min := 255, note_max := 255 },
        stage := CalibStage.VCO_1, stage_vco := CalibVcoStage.TUNER,
        frequency := 0, vco_calib_timer := 0, vco_calib_progress := 0 }
  | CalibStage.PREP_VCO_2 =>
    { s with
        calib_matrix_2 :=
          { s.calib_matrix_2 with note_min := 255, note_max := 255 },
        stage := CalibStage.VCO_2, stage_vco := CalibVcoStage.TUNER,
        frequency := 0, vco_calib_timer := 0, vco_calib_progress := 0 }
  | CalibStage.PREP_RESET_VCO_1 =>
    write_matrices
      { s with
          calib_matrix_2 :=
            { s.calib_matrix_2 with note_min := 255, note_max := 255 },
          stage := CalibStage.PREP_RESET_VCO_2 }
  | CalibStage.PREP_RESET_VCO_2 =>
    write_matrices
      { s with
          calib_matrix_2 :=
            { s.calib_matrix_2 with note_min := 255, note_max := 255 },
          stage := CalibStage.PREP_GAIN_1 }
  | _ => s

/-- `Calibration::btn` with its two event handlers: read the button,
classify, and dispatch the short/long handlers. -/
def btn (inp : LoopInput) (s : CalibState) : CalibState :=
  let r := btn_core s.btn_timer s.btn_handled inp.time_ms inp.btn_pressed
  let s1 := { s with btn_timer := r.timer, btn_handled := r.handled }
  let s2 := if r.short then btn_short_press s1 else s1
  if r.long then btn_long_press inp.dip_states s2 else s2

/-- `Calibration::tuner` (`calibration.cpp:208-220`): decode the DIP
selector into a target note, drive both channels to its calibrated
voltage, and report the cents deviation of the measured frequency. -/
def tuner (orc : FloatOracles) (inp : LoopInput) (s : CalibState) :
    CalibState :=
  let target_octave := min ((inp.dip_states % 256) / 16) 8
  let target_note := min (inp.dip_states % 16) 11
  let target_cents := (target_octave * 12 + target_note + 12) * 100
  let tf := orc.noteToHz target_cents
  { s with
    dac_1 := note_to_mv_cal s.calib_matrix_1 s.calib_matrix_2 s.stage 0
      target_cents,
    dac_2 := note_to_mv_cal s.calib_matrix_1 s.calib_matrix_2 s.stage 1
      target_cents,
    target_frequency := tf,
    tuner_deviation_cents := orc.deviation tf s.frequency }

/-- The stabilization test of the `LINEARITY` sub-stage
(`calibration.cpp:273-277`): the last five buffered readings are all
non-zero and within 1 cent of the current reading. -/
def vcoStabilized (buf : ℕ → ℕ) (cents : ℕ) : Bool :=
  (List.range 5).all fun i =>
    decide (buf i ≠ 0 ∧ |i16cast cents - i16cast (buf i)| ≤ 1)

/-- The address guard of the `LINEARITY` sub-stage
(`calibration.cpp:317-318`): a previous write exists and the new address
decreases or jumps by more than one. -/
def vcoAddressBad (address address_last : ℕ) : Prop :=
  address_last ≠ 255 ∧
    (address < address_last ∨ 1 < u8sub address address_last)

instance (address address_last : ℕ) :
    Decidable (vcoAddressBad address address_last) := by
  unfold vcoAddressBad; infer_instance

/-- The cyclic advance of the stabilization-buffer counter
(`calibration.cpp:278-281`). -/
def bufCounterNext (s : CalibState) : ℕ :=
  if s.vco_cents_buffer_counter < 4 then s.vco_cents_buffer_counter + 1 else 0

/-- The new-note observation block of the `LINEARITY` sub-stage
(`calibration.cpp:294-347`): closest-voltage tracking, `note_min`
capture, the non-monotonicity guard and the table write.  Returns the
successor state, the addresses written, and whether the guard aborted
the sweep (the source's early `return`). -/
def linearityObserve (s : CalibState) (vco_cents : ℕ) :
    CalibState × List ℕ × Bool :=
  if 1200 ≤ vco_cents ∧ vco_cents ≤ 12700 ∧
      1200 ≤ s.vco_cents_last ∧ s.vco_cents_last ≤ 12700 then
    let vco_note := vco_cents / 100
    let vco_note_last := s.vco_cents_last / 100
    let s3 := if vco_note = vco_note_last ∧
        vco_cents % 100 < s.vco_cents_last % 100 then
      { s with vco_note_closest_mv := s.mv_current } else s
    if vco_note_last < vco_note then
      let m0 := selMatrix s3
      let m1 := if 127 < m0.note_min then
        { m0 with note_min := vco_note_last } else m0
      let s4 := withSelMatrix s3 m1
      let address := vco_note_last - 12
      if vcoAddressBad address s4.address_last then
        ({ s4 with stage := CalibStage.ERROR }, [], true)
      else if s4.address_last = 255 ∨ s4.address_last < address then
        let s5 := withSelMatrix s4
          (matrixWrite (selMatrix s4) address s4.vco_note_closest_mv)
        ({ s5 with
            address_last := address,
            vco_note_closest_mv := s5.mv_current }, [address], false)
      else (s4, [], false)
    else (s3, [], false)
  else ({ s with vco_note_closest_mv := s.mv_current }, [], false)

/-- The voltage increment, progress estimate and termination check of
the `LINEARITY` sub-stage (`calibration.cpp:349-387`). -/
def linearityFinish (inp : LoopInput) (vco_cents : ℕ) (s : CalibState)
    (log : List ℕ) : CalibState × List ℕ :=
  let mv1 := (s.mv_current + 1) % 65536
  let sB := set_dac_cv (if s.stage = CalibStage.VCO_1 then 0 else 1)
    (mv1 : ℚ) { s with mv_current := mv1 }
  let sC := { sB with
    vco_cents_buffer := fun _ => 0,
    vco_cents_buffer_counter := 0 }
  let mv_end := (if sC.stage = CalibStage.VCO_1 then inp.dac_max_1
    else inp.dac_max_2) * (95 / 100)
  let sD := { sC with
    vco_calib_progress :=
      max ((vco_cents : ℚ) / 12700) ((mv1 : ℚ) / mv_end) }
  if mv_end ≤ (mv1 : ℚ) ∨ 12700 < vco_cents then
    let note_max := (sD.vco_cents_last / 100) % 256
    let mA := { selMatrix sD with note_max := note_max }
    let mB := matrixWrite mA (u8sub note_max 12) sD.vco_note_closest_mv
    let sE := write_matrices (withSelMatrix sD mB)
    ({ sE with
        vco_calib_timer := 0, stage_vco := CalibVcoStage.TUNER,
        stage_last := sE.stage, stage := CalibStage.DONE,
        dac_1 := 0, dac_2 := 0, vco_cents_last := vco_cents },
      log ++ [u8sub note_max 12])
  else ({ sD with vco_cents_last := vco_cents }, log)

/-- The part of a `LINEARITY` iteration that runs once the reading has
stabilized (`calibration.cpp:286-387`): observe the note, then advance
the voltage unless the guard aborted. -/
def linearityStable (orc : FloatOracles) (inp : LoopInput)
    (s : CalibState) : CalibState × List ℕ :=
  let vco_cents := orc.hzToNote s.frequency
  let step3 := linearityObserve s vco_cents
  if step3.2.2 then (step3.1, step3.2.1)
  else linearityFinish inp vco_cents step3.1 step3.2.1

/-- A `LINEARITY` iteration past the settle gate
(`calibration.cpp:270-284`): sample the note, update the stabilization
buffer, and proceed only on a stabilized reading (with the iteration
timer rearmed). -/
def linearityCore (orc : FloatOracles) (inp : LoopInput)
    (s : CalibState) : CalibState × List ℕ :=
  let vco_cents := orc.hzToNote s.frequency
  let stabilized := vcoStabilized s.vco_cents_buffer vco_cents
  let s1 := { s with
    vco_cents_buffer := fun i =>
      if i = bufCounterNext s then vco_cents else s.vco_cents_buffer i,
    vco_cents_buffer_counter := bufCounterNext s }
  if ¬ stabilized then (s1, [])
  else linearityStable orc inp { s1 with vco_calib_timer := inp.time_ms }

/-- The `LINEARITY` sub-stage of `Calibration::vco`
(`calibration.cpp:263-388`): arm the iteration timer on the first call,
return untouched inside the 10 ms settle window, otherwise run the
iteration body.  Returns the successor state together with the list of
table addresses written during the step. -/
def linearityStep (orc : FloatOracles) (inp : LoopInput) (s : CalibState) :
    CalibState × List ℕ :=
  let time := inp.time_ms
  if s.vco_calib_timer ≠ 0 ∧ s.vco_calib_timer < time ∧
      time - s.vco_calib_timer < 10 then (s, [])
  else if s.vco_calib_timer = 0 then
    linearityCore orc inp { s with vco_calib_timer := time }
  else linearityCore orc inp s

/-- `Calibration::vco` (`calibration.cpp:225-389`): the three ordered
sub-stages of the per-channel sweep. -/
def vco (orc : FloatOracles) (inp : LoopInput) (s : CalibState) :
    CalibState × List ℕ :=
  let time := inp.time_ms
  if s.stage_vco = CalibVcoStage.TUNER then
    let s1 := if 10 < |s.tuner_deviation_cents| then
      { s with vco_calib_timer := time } else s
    if s1.vco_calib_timer = 0 then ({ s1 with vco_calib_timer := time }, [])
    else if time < s1.vco_calib_timer ∨ 5000 < time - s1.vco_calib_timer then
      (set_dac_cv (if s1.stage = CalibStage.VCO_1 then 0 else 1) 10
        { s1 with
          vco_calib_timer := 0, stage_vco := CalibVcoStage.LOWER,
          frequency := 0 }, [])
    else (s1, [])
  else if s.stage_vco = CalibVcoStage.LOWER then
    if s.vco_calib_timer = 0 then ({ s with vco_calib_timer := time }, [])
    else if time < s.vco_calib_timer ∨ 2000 < time - s.vco_calib_timer then
      ({ s with
          vco_calib_timer := 0, vco_cents_buffer := fun _ => 0,
          vco_cents_buffer_counter := 0, vco_cents_last := 0,
          vco_note_closest_mv := 10, mv_current := 10,
          stage_vco := CalibVcoStage.LINEARITY, address_last := 255 }, [])
    else (s, [])
  else if s.stage_vco = CalibVcoStage.LINEARITY then
    linearityStep orc inp s
  else (s, [])

/-- The tail of `Calibration::loop` after the frequency bookkeeping:
dispatch to `tuner` and `vco` according to the stage
(`calibration.cpp:195-202`). -/
def loopTail (orc : FloatOracles) (inp : LoopInput) (s : CalibState) :
    CalibState × List ℕ :=
  let sA := if s.stage = CalibStage.TUNER ∨
      ((s.stage = CalibStage.VCO_1 ∨ s.stage = CalibStage.VCO_2) ∧
        s.stage_vco = CalibVcoStage.TUNER) then tuner orc inp s else s
  if sA.stage = CalibStage.VCO_1 ∨ sA.stage = CalibStage.VCO_2 then
    vco orc inp sA
  else (sA, [])

/-- The exponential smoothing of the measured frequency
(`calibration.cpp:175-178`) with `CALIB_VCO_FREQ_FILTER_K = 0.994`. -/
def filteredFreq (s : CalibState) : ℚ :=
  if s.frequency ≤ 1 then s.frequency_raw
  else s.frequency * (994 / 1000) + s.frequency_raw * (6 / 1000)

/-- The gain-offset capture of `Calibration::loop`
(`calibration.cpp:166-170`): while in a `GAIN_x` stage the live DIP
switch value drives the corresponding offset. -/
def gainPhase (inp : LoopInput) (s : CalibState) : CalibState :=
  if s.stage = CalibStage.GAIN_1 then
    { s with gain_1_offset := dip_to_gain_offset inp.dip_states }
  else if s.stage = CalibStage.GAIN_2 then
    { s with gain_2_offset := dip_to_gain_offset inp.dip_states }
  else s

/-- `Calibration::loop` (`calibration.cpp:154-203`): inactive and
`ERROR` short-circuits, button handling, gain-offset capture, frequency
filtering, the 2-second signal-loss timeout, then the tuner/VCO
dispatch.  Also returns the table addresses written during the
iteration. -/
def loop (orc : FloatOracles) (inp : LoopInput) (s : CalibState) :
    CalibState × List ℕ :=
  if ¬ s.active then (s, [])
  else if s.stage = CalibStage.ERROR then
    ({ s with dac_1 := 0, dac_2 := 0 }, [])
  else
    let s1 := btn inp s
    let s2 := gainPhase inp s1
    let s3 := { s2 with frequency := filteredFreq s2 }
    if 0 < s3.frequency ∧ 2000000 < u64sub inp.time_us s3.time_last then
      let s4 := { s3 with frequency := 0, frequency_raw := 0 }
      if (s4.stage = CalibStage.VCO_1 ∨ s4.stage = CalibStage.VCO_2) ∧
          s4.stage_vco = CalibVcoStage.LINEARITY then
        ({ s4 with stage := CalibStage.ERROR }, [])
      else loopTail orc inp s4
    else loopTail orc inp s3

/-- The `LOWER` sub-stage advance: after the settle delay the sweep
state is initialized (`calibration.cpp:243-260`). -/
theorem vco_lower_advance (orc : FloatOracles) (inp : LoopInput)
    (s : CalibState) (h1 : s.stage_vco = CalibVcoStage.LOWER)
    (h2 : s.vco_calib_timer ≠ 0)
    (h3 : inp.time_ms < s.vco_calib_timer ∨
      2000 < inp.time_ms - s.vco_calib_timer) :
    vco orc inp s =
      ({ s with
          vco_calib_timer := 0, vco_cents_buffer := fun _ => 0,
          vco_cents_buffer_counter := 0, vco_cents_last := 0,
          vco_note_closest_mv := 10, mv_current := 10,
          stage_vco := CalibVcoStage.LINEARITY, address_last := 255 },
        []) := by
  simp only [vco]
  rw [if_neg (show ¬ s.stage_vco = CalibVcoStage.TUNER by
      rw [h1]; exact fun hcon => nomatch hcon),
    if_pos h1, if_neg h2, if_pos h3]

/-- A `LINEARITY` iteration inside the 10 ms settle window returns
without touching the state (`calibration.cpp:265-268`). -/
theorem linearity_gate_wait (orc : FloatOracles) (inp : LoopInput)
    (s : CalibState) (h1 : s.vco_calib_timer ≠ 0)
    (h2 : s.vco_calib_timer < inp.time_ms)
    (h3 : inp.time_ms - s.vco_calib_timer < 10) :
    linearityStep orc inp s = (s, []) := by
  unfold linearityStep
  rw [if_pos ⟨h1, h2, h3⟩]

/-- A `LINEARITY` iteration body with an unstabilized reading only
records the reading in the stabilization buffer
(`calibration.cpp:270-284`). -/
theorem linearityCore_not_stab (orc : FloatOracles) (inp : LoopInput)
    (s : CalibState)
    (hstab : vcoStabilized s.vco_cents_buffer
      (orc.hzToNote s.frequency) = false) :
    linearityCore orc inp s =
      ({ s with
          vco_cents_buffer := fun i => if i = bufCounterNext s then
            orc.hzToNote s.frequency else s.vco_cents_buffer i,
          vco_cents_buffer_counter := bufCounterNext s }, []) := by
  simp only [linearityCore]
  rw [hstab]
  simp

/-- A `LINEARITY` iteration body with a stabilized reading rearms the
iteration timer and runs the observation and voltage-advance blocks
(`calibration.cpp:286-387`). -/
theorem linearityCore_stab (orc : FloatOracles) (inp : LoopInput)
    (s : CalibState)
    (hstab : vcoStabilized s.vco_cents_buffer
      (orc.hzToNote s.frequency) = true) :
    linearityCore orc inp s =
      linearityStable orc inp
        { s with
            vco_cents_buffer := fun i => if i = bufCounterNext s then
              orc.hzToNote s.frequency else s.vco_cents_buffer i,
            vco_cents_buffer_counter := bufCounterNext s,
            vco_calib_timer := inp.time_ms } := by
  simp only [linearityCore]
  rw [hstab]
  simp

/-- A first `LINEARITY` iteration (timer still zero) runs the iteration
body with the timer armed (`calibration.cpp:265-268`). -/
theorem linearity_step_zero (orc : FloatOracles) (inp : LoopInput)
    (s : CalibState) (h0 : s.vco_calib_timer = 0) :
    linearityStep orc inp s =
      linearityCore orc inp { s with vco_calib_timer := inp.time_ms } := by
  simp only [linearityStep]
  rw [if_neg (show ¬ (s.vco_calib_timer ≠ 0 ∧
      s.vco_calib_timer < inp.time_ms ∧
      inp.time_ms - s.vco_calib_timer < 10) from by simp [h0]),
    if_pos h0]

/-- A subsequent `LINEARITY` iteration past the settle window runs the
iteration body unchanged (`calibration.cpp:265-268`). -/
theorem linearity_step_pass (orc : FloatOracles) (inp : LoopInput)
    (s : CalibState) (h0 : s.vco_calib_timer ≠ 0)
    (hg : ¬ (s.vco_calib_timer < inp.time_ms ∧
      inp.time_ms - s.vco_calib_timer < 10)) :
    linearityStep orc inp s = linearityCore orc inp s := by
  simp only [linearityStep]
  rw [if_neg (show ¬ (s.vco_calib_timer ≠ 0 ∧
      s.vco_calib_timer < inp.time_ms ∧
      inp.time_ms - s.vco_calib_timer < 10) from
      fun hcon => hg ⟨hcon.2.1, hcon.2.2⟩),
    if_neg h0]

/-- In `LINEARITY` sub-stage, `vco` runs `linearityStep`
(`calibration.cpp:263`). -/
theorem vco_linearity (orc : FloatOracles) (inp : LoopInput)
    (s : CalibState) (h : s.stage_vco = CalibVcoStage.LINEARITY) :
    vco orc inp s = linearityStep orc inp s := by
  simp only [vco]
  rw [if_neg (show ¬ s.stage_vco = CalibVcoStage.TUNER by
      rw [h]; exact fun hcon => nomatch hcon),
    if_neg (show ¬ s.stage_vco = CalibVcoStage.LOWER by
      rw [h]; exact fun hcon => nomatch hcon),
    if_pos h]

/-- An observation whose previous reading is below the valid range only
re-tracks the closest voltage (`calibration.cpp:345-347`). -/
theorem linearityObserve_low (s : CalibState) (cents : ℕ)
    (hlast : s.vco_cents_last < 1200) :
    linearityObserve s cents =
      ({ s with vco_note_closest_mv := s.mv_current }, [], false) := by
  unfold linearityObserve
  rw [if_neg (fun hcon => absurd hcon.2.2.1 (by omega))]

/-- The non-monotonicity guard (`calibration.cpp:317-328`): an in-range
observation of a new note whose table address decreases or jumps by more
than one relative to the last written address sets the `ERROR` stage,
writes nothing, and aborts the iteration. -/
theorem linearityObserve_bad (s : CalibState) (cents : ℕ)
    (hin : 1200 ≤ cents ∧ cents ≤ 12700 ∧
      1200 ≤ s.vco_cents_last ∧ s.vco_cents_last ≤ 12700)
    (hnew : s.vco_cents_last / 100 < cents / 100)
    (hbad : vcoAddressBad (s.vco_cents_last / 100 - 12) s.address_last) :
    (linearityObserve s cents).1.stage = CalibStage.ERROR ∧
      (linearityObserve s cents).2.1 = [] ∧
      (linearityObserve s cents).2.2 = true := by
  simp only [linearityObserve]
  rw [if_pos hin,
    if_neg (show ¬ (cents / 100 = s.vco_cents_last / 100 ∧
      cents % 100 < s.vco_cents_last % 100) from
      fun hcon => absurd hcon.1 (by omega)),
    if_pos hnew]
  by_cases hs : s.stage = CalibStage.VCO_1 <;>
    by_cases hnm : 127 < (selMatrix s).note_min <;>
      simp [selMatrix, withSelMatrix, hs, hnm] at hbad ⊢ <;>
        simp [hbad]

/-- Lifting the guard result through `linearityStable`: the aborting
observation makes the whole stabilized iteration return the `ERROR`
state with no writes. -/
theorem linearityStable_err (orc : FloatOracles) (inp : LoopInput)
    (s : CalibState)
    (hin : 1200 ≤ orc.hzToNote s.frequency ∧
      orc.hzToNote s.frequency ≤ 12700 ∧
      1200 ≤ s.vco_cents_last ∧ s.vco_cents_last ≤ 12700)
    (hnew : s.vco_cents_last / 100 < orc.hzToNote s.frequency / 100)
    (hbad : vcoAddressBad (s.vco_cents_last / 100 - 12) s.address_last) :
    (linearityStable orc inp s).1.stage = CalibStage.ERROR ∧
      (linearityStable orc inp s).2 = [] := by
  have hobs := linearityObserve_bad s (orc.hzToNote s.frequency) hin hnew hbad
  simp only [linearityStable]
  rw [hobs.2.2]
  simp [hobs.1, hobs.2.1]

/-- The sweep-termination block (`calibration.cpp:364-383`), entered
here through its second trigger (a measured note above 12700 cents):
the table receives a final write at the 8-bit wrapped address
`note_max - 12` with `note_max = vco_cents_last / 100`, and the stage
advances to `DONE`. -/
theorem linearityFinish_done (inp : LoopInput) (vco_cents : ℕ)
    (s : CalibState) (log : List ℕ) (hhi : 12700 < vco_cents)
    (hstage : s.stage = CalibStage.VCO_1) :
    (linearityFinish inp vco_cents s log).2 =
        log ++ [u8sub (s.vco_cents_last / 100 % 256) 12] ∧
      (linearityFinish inp vco_cents s log).1.stage = CalibStage.DONE ∧
      (linearityFinish inp vco_cents s log).1.calib_matrix_1.note_max =
        s.vco_cents_last / 100 % 256 ∧
      (linearityFinish inp vco_cents s log).1.vco_cents_last = vco_cents := by
  unfold linearityFinish
  simp only [set_dac_cv, hstage, write_matrices, selMatrix, withSelMatrix,
    matrixWrite]
  rw [if_pos (Or.inr hhi)]
  simp

/-- A stabilized iteration whose previous reading is still below range
and whose current reading is above 12700 cents terminates the sweep
with the wrapped final write. -/
theorem linearityStable_done_high (orc : FloatOracles) (inp : LoopInput)
    (s : CalibState) (hlast : s.vco_cents_last < 1200)
    (hhi : 12700 < orc.hzToNote s.frequency)
    (hstage : s.stage = CalibStage.VCO_1) :
    (linearityStable orc inp s).2 =
        [u8sub (s.vco_cents_last / 100 % 256) 12] ∧
      (linearityStable orc inp s).1.stage = CalibStage.DONE ∧
      (linearityStable orc inp s).1.calib_matrix_1.note_max =
        s.vco_cents_last / 100 % 256 ∧
      (linearityStable orc inp s).1.vco_cents_last =
        orc.hzToNote s.frequency := by
  simp only [linearityStable]
  rw [linearityObserve_low s (orc.hzToNote s.frequency) hlast]
  have hfin := linearityFinish_done inp (orc.hzToNote s.frequency)
    { s with vco_note_closest_mv := s.mv_current } [] hhi hstage
  simpa using hfin

/-- C4: in the `LINEARITY` sub-stage, whenever a stabilized in-range
observation yields a new note whose table address is lower than the last
written address or more than 1 above it, `vco` transitions the stage to
`ERROR` and writes no table entry in that step. -/
theorem C4_monotonicity_guard (orc : FloatOracles) (inp : LoopInput)
    (s : CalibState) (hsub : s.stage_vco = CalibVcoStage.LINEARITY)
    (htimer : s.vco_calib_timer ≠ 0)
    (hg : ¬ (s.vco_calib_timer < inp.time_ms ∧
      inp.time_ms - s.vco_calib_timer < 10))
    (hstab : vcoStabilized s.vco_cents_buffer
      (orc.hzToNote s.frequency) = true)
    (hin : 1200 ≤ orc.hzToNote s.frequency ∧
      orc.hzToNote s.frequency ≤ 12700 ∧
      1200 ≤ s.vco_cents_last ∧ s.vco_cents_last ≤ 12700)
    (hnew : s.vco_cents_last / 100 < orc.hzToNote s.frequency / 100)
    (hbad : vcoAddressBad (s.vco_cents_last / 100 - 12) s.address_last) :
    (vco orc inp s).1.stage = CalibStage.ERROR ∧ (vco orc inp s).2 = [] := by
  rw [vco_linearity orc inp s hsub,
    linearity_step_pass orc inp s htimer hg,
    linearityCore_stab orc inp s hstab]
  exact linearityStable_err orc inp _ hin hnew hbad

/-- A neutral concrete state for instantiating the state machine. -/
def initState : CalibState :=
  { active := true, stage := CalibStage.VCO_1,
    stage_vco := CalibVcoStage.LINEARITY, stage_last := CalibStage.NONE,
    btn_timer := 0, btn_handled := true, time_last := 0, frequency_raw := 0,
    frequency := 0, target_frequency := 0, calib_matrix_1 := mUncal,
    calib_matrix_2 := mUncal, vco_calib_timer := 0, mv_current := 0,
    vco_cents_last := 0, vco_cents_buffer := fun _ => 0,
    vco_cents_buffer_counter := 0, vco_note_closest_mv := 0,
    address_last := 0, tuner_deviation_cents := 0, vco_calib_progress := 0,
    gain_1_offset := 0, gain_2_offset := 0, dac_1 := 0, dac_2 := 0,
    eeprom_gain_1 := 0, eeprom_gain_2 := 0, eeprom_matrix_1 := mUncal,
    eeprom_matrix_2 := mUncal }

/-- A loop input at `millis() = t` with idle button, cleared DIP
switches and an 8 V compensator maximum. -/
def mkInput (t : ℕ) : LoopInput :=
  { time_ms := t, time_us := t * 1000, btn_pressed := false,
    dip_states := 0, dac_max_1 := 8000, dac_max_2 := 8000 }

/-- Oracle for the C4 witness: the VCO reads a constant 2500 cents. -/
def orcC4 : FloatOracles := ⟨fun _ => 2500, fun _ => 0, fun _ _ => 0⟩

/-- C4 witness state: mid-sweep on channel 1 with a stabilized 2500
cents reading, previous reading 2300 cents, last written address 5. -/
def sC4 : CalibState :=
  { initState with
    vco_calib_timer := 50, frequency := 100,
    vco_cents_buffer := fun _ => 2500, vco_cents_last := 2300,
    address_last := 5 }

/-- Witness for C4: the concrete jump from note 23 (address 11, last
written 5) aborts to `ERROR` with no write. -/
theorem C4_monotonicity_guard_witness :
    (vco orcC4 (mkInput 100) sC4).1.stage = CalibStage.ERROR ∧
      (vco orcC4 (mkInput 100) sC4).2 = [] :=
  C4_monotonicity_guard orcC4 (mkInput 100) sC4 rfl (by decide) (by decide)
    (by decide) (by decide) (by decide) (by decide)

/-- Run `Calibration::vco` over a sequence of loop inputs, concatenating
the table-write logs. -/
def vcoRun (orc : FloatOracles) :
    List LoopInput → CalibState → CalibState × List ℕ
  | [], s => (s, [])
  | inp :: rest, s =>
    let r := vco orc inp s
    let k := vcoRun orc rest r.1
    (k.1, r.2 ++ k.2)

/-- Oracle for the C10 run: a broken VCO that reads 12800 cents (above
the note range) whenever it oscillates at all. -/
def orcC10 : FloatOracles :=
  ⟨fun f => if f ≤ 0 then 0 else 12800, fun _ => 0, fun _ _ => 0⟩

/-- C10 start state: channel-1 sweep in the `LOWER` sub-stage (settle
timer armed at 1 ms) with the oscillator running. -/
def s0C10 : CalibState :=
  { initState with
    stage_vco := CalibVcoStage.LOWER, vco_calib_timer := 1,
    frequency_raw := 13290, frequency := 13290 }

/-- State entering `LINEARITY` (produced by the `LOWER` advance at 5000
ms). -/
def s1C10 : CalibState :=
  { s0C10 with
    vco_calib_timer := 0, vco_cents_buffer := fun _ => 0,
    vco_cents_buffer_counter := 0, vco_cents_last := 0,
    vco_note_closest_mv := 10, mv_current := 10,
    stage_vco := CalibVcoStage.LINEARITY, address_last := 255 }

/-- After the unstabilized iteration at 5100 ms. -/
def s2C10 : CalibState :=
  { s1C10 with
    vco_calib_timer := 5100,
    vco_cents_buffer := fun i =>
      if i = 1 then 12800 else s1C10.vco_cents_buffer i,
    vco_cents_buffer_counter := 1 }

/-- After the unstabilized iteration at 5110 ms. -/
def s3C10 : CalibState :=
  { s2C10 with
    vco_cents_buffer := fun i =>
      if i = 2 then 12800 else s2C10.vco_cents_buffer i,
    vco_cents_buffer_counter := 2 }

/-- After the unstabilized iteration at 5120 ms. -/
def s4C10 : CalibState :=
  { s3C10 with
    vco_cents_buffer := fun i =>
      if i = 3 then 12800 else s3C10.vco_cents_buffer i,
    vco_cents_buffer_counter := 3 }

/-- After the unstabilized iteration at 5130 ms. -/
def s5C10 : CalibState :=
  { s4C10 with
    vco_cents_buffer := fun i =>
      if i = 4 then 12800 else s4C10.vco_cents_buffer i,
    vco_cents_buffer_counter := 4 }

/-- After the unstabilized iteration at 5140 ms: the buffer now holds
five agreeing 12800 readings. -/
def s6C10 : CalibState :=
  { s5C10 with
    vco_cents_buffer := fun i =>
      if i = 0 then 12800 else s5C10.vco_cents_buffer i,
    vco_cents_buffer_counter := 0 }

/-- The state on which the stabilized iteration at 5150 ms runs. -/
def s7C10 : CalibState :=
  { s6C10 with
    vco_cents_buffer := fun i =>
      if i = 1 then 12800 else s6C10.vco_cents_buffer i,
    vco_cents_buffer_counter := 1, vco_calib_timer := 5150 }

/-- The C10 input trace: the `LOWER` advance at 5000 ms, then
`LINEARITY` iterations every 10 ms or more. -/
def inputsC10 : List LoopInput :=
  [mkInput 5000, mkInput 5100, mkInput 5110, mkInput 5120, mkInput 5130,
    mkInput 5140, mkInput 5150]

/-- C10: a reachable sweep run in which the very first stabilized
reading already exceeds 12700 cents terminates with
`vco_cents_last = 0`, so `note_max` is recorded as 0 and the final table
write lands at the 8-bit wrapped address `0 - 12 = 244`, far outside the
valid indices `0..115` of the 116-entry table. -/
theorem C10_termination_write_out_of_bounds :
    (vcoRun orcC10 inputsC10 s0C10).2 = [244] ∧
      (vcoRun orcC10 inputsC10 s0C10).1.stage = CalibStage.DONE ∧
      (vcoRun orcC10 inputsC10 s0C10).1.calib_matrix_1.note_max = 0 ∧
      s6C10.vco_cents_last = 0 := by
  have e1 : vco orcC10 (mkInput 5000) s0C10 = (s1C10, []) :=
    vco_lower_advance orcC10 (mkInput 5000) s0C10 rfl (by decide) (by decide)
  have e2 : vco orcC10 (mkInput 5100) s1C10 = (s2C10, []) := by
    rw [vco_linearity orcC10 (mkInput 5100) s1C10 rfl,
      linearity_step_zero orcC10 (mkInput 5100) s1C10 rfl,
      linearityCore_not_stab orcC10 (mkInput 5100) _ (by decide)]
    rfl
  have e3 : vco orcC10 (mkInput 5110) s2C10 = (s3C10, []) := by
    rw [vco_linearity orcC10 (mkInput 5110) s2C10 rfl,
      linearity_step_pass orcC10 (mkInput 5110) s2C10 (by decide) (by decide),
      linearityCore_not_stab orcC10 (mkInput 5110) s2C10 (by decide)]
    rfl
  have e4 : vco orcC10 (mkInput 5120) s3C10 = (s4C10, []) := by
    rw [vco_linearity orcC10 (mkInput 5120) s3C10 rfl,
      linearity_step_pass orcC10 (mkInput 5120) s3C10 (by decide) (by decide),
      linearityCore_not_stab orcC10 (mkInput 5120) s3C10 (by decide)]
    rfl
  have e5 : vco orcC10 (mkInput 5130) s4C10 = (s5C10, []) := by
    rw [vco_linearity orcC10 (mkInput 5130) s4C10 rfl,
      linearity_step_pass orcC10 (mkInput 5130) s4C10 (by decide) (by decide),
      linearityCore_not_stab orcC10 (mkInput 5130) s4C10 (by decide)]
    rfl
  have e6 : vco orcC10 (mkInput 5140) s5C10 = (s6C10, []) := by
    rw [vco_linearity orcC10 (mkInput 5140) s5C10 rfl,
      linearity_step_pass orcC10 (mkInput 5140) s5C10 (by decide) (by decide),
      linearityCore_not_stab orcC10 (mkInput 5140) s5C10 (by decide)]
    rfl
  have e7 : vco orcC10 (mkInput 5150) s6C10 =
      linearityStable orcC10 (mkInput 5150) s7C10 := by
    rw [vco_linearity orcC10 (mkInput 5150) s6C10 rfl,
      linearity_step_pass orcC10 (mkInput 5150) s6C10 (by decide) (by decide),
      linearityCore_stab orcC10 (mkInput 5150) s6C10 (by decide)]
    rfl
  have hfin := linearityStable_done_high orcC10 (mkInput 5150) s7C10
    (by decide) (by decide) rfl
  have hidx : u8sub (s7C10.vco_cents_last / 100 % 256) 12 = 244 := by decide
  refine ⟨?_, ?_, ?_, by decide⟩ <;>
    simp only [inputsC10, vcoRun, e1, e2, e3, e4, e5, e6, e7,
      List.nil_append, List.append_nil] <;>
    rw [hidx] at hfin
  · rw [hfin.1]
  · exact hfin.2.1
  · rw [hfin.2.2.1]
    decide

theorem tuner_frequency (orc : FloatOracles) (inp : LoopInput)
    (s : CalibState) : (tuner orc inp s).frequency = s.frequency := rfl

theorem gainPhase_proj (inp : LoopInput) (s : CalibState) :
    (gainPhase inp s).frequency = s.frequency ∧
      (gainPhase inp s).frequency_raw = s.frequency_raw ∧
      (gainPhase inp s).time_last = s.time_last ∧
      (gainPhase inp s).stage = s.stage ∧
      (gainPhase inp s).stage_vco = s.stage_vco := by
  unfold gainPhase
  split_ifs <;> simp

/-- `Calibration::btn` never raises the measured frequency: it keeps it
or (in the long-press handlers that restart a measurement) zeroes it,
and it never touches `frequency_raw` or the edge timestamp. -/
theorem btn_freq_proj (inp : LoopInput) (s : CalibState) :
    ((btn inp s).frequency = s.frequency ∨ (btn inp s).frequency = 0) ∧
      (btn inp s).frequency_raw = s.frequency_raw ∧
      (btn inp s).time_last = s.time_last := by
  unfold btn btn_short_press btn_long_press write_matrices
  by_cases hsh :
      (btn_core s.btn_timer s.btn_handled inp.time_ms inp.btn_pressed).short <;>
    by_cases hlg :
      (btn_core s.btn_timer s.btn_handled inp.time_ms inp.btn_pressed).long <;>
      simp only [hsh, hlg, if_true, if_false, Bool.false_eq_true] <;>
      cases hst : s.stage <;>
      by_cases hl : s.stage_last = CalibStage.VCO_1 <;>
      simp_all

/-- While the stage is `VCO_1` or `VCO_2`, the button handlers leave the
stage, sub-stage and frequency bookkeeping unchanged. -/
theorem btn_vco_proj (inp : LoopInput) (s : CalibState)
    (h : s.stage = CalibStage.VCO_1 ∨ s.stage = CalibStage.VCO_2) :
    (btn inp s).stage = s.stage ∧ (btn inp s).stage_vco = s.stage_vco ∧
      (btn inp s).frequency = s.frequency ∧
      (btn inp s).frequency_raw = s.frequency_raw ∧
      (btn inp s).time_last = s.time_last := by
  unfold btn btn_short_press btn_long_press
  by_cases hsh :
      (btn_core s.btn_timer s.btn_handled inp.time_ms inp.btn_pressed).short <;>
    by_cases hlg :
      (btn_core s.btn_timer s.btn_handled inp.time_ms inp.btn_pressed).long <;>
      rcases h with h | h <;>
      simp_all

theorem withSelMatrix_frequency (s : CalibState) (m : CalibMatrix) :
    (withSelMatrix s m).frequency = s.frequency := by
  unfold withSelMatrix
  split_ifs <;> rfl

theorem write_matrices_frequency (s : CalibState) :
    (write_matrices s).frequency = s.frequency := rfl

theorem set_dac_cv_frequency (ch : ℕ) (mv : ℚ) (s : CalibState) :
    (set_dac_cv ch mv s).frequency = s.frequency := by
  unfold set_dac_cv
  split_ifs <;> rfl

theorem linearityObserve_frequency (s : CalibState) (c : ℕ) :
    (linearityObserve s c).1.frequency = s.frequency := by
  simp only [linearityObserve]
  simp only [apply_ite (fun (p : CalibState × List ℕ × Bool) => p.1.frequency),
    apply_ite CalibState.frequency, withSelMatrix_frequency, ite_self]

theorem linearityFinish_frequency (inp : LoopInput) (c : ℕ)
    (s : CalibState) (log : List ℕ) :
    (linearityFinish inp c s log).1.frequency = s.frequency := by
  simp only [linearityFinish]
  simp only [apply_ite (fun (p : CalibState × List ℕ) => p.1.frequency),
    apply_ite CalibState.frequency, withSelMatrix_frequency,
    write_matrices_frequency, set_dac_cv_frequency, ite_self]

theorem linearityStable_frequency (orc : FloatOracles) (inp : LoopInput)
    (s : CalibState) :
    (linearityStable orc inp s).1.frequency = s.frequency := by
  unfold linearityStable
  by_cases h : (linearityObserve s (orc.hzToNote s.frequency)).2.2 <;>
    simp [h, linearityFinish_frequency, linearityObserve_frequency]

theorem linearityStep_frequency (orc : FloatOracles) (inp : LoopInput)
    (s : CalibState) :
    (linearityStep orc inp s).1.frequency = s.frequency := by
  have hcore : ∀ t : CalibState, t.frequency = s.frequency →
      (linearityCore orc inp t).1.frequency = s.frequency := by
    intro t ht
    simp only [linearityCore]
    by_cases h : vcoStabilized t.vco_cents_buffer (orc.hzToNote t.frequency)
    · rw [h]
      simp [linearityStable_frequency, ht]
    · simp only [Bool.not_eq_true] at h
      rw [h]
      simp [ht]
  simp only [linearityStep]
  split_ifs with h1 h2
  · rfl
  · exact hcore _ rfl
  · exact hcore _ rfl

/-- `Calibration::vco` keeps the smoothed frequency or zeroes it. -/
theorem vco_frequency (orc : FloatOracles) (inp : LoopInput)
    (s : CalibState) :
    (vco orc inp s).1.frequency = s.frequency ∨
      (vco orc inp s).1.frequency = 0 := by
  simp only [vco, set_dac_cv]
  split_ifs <;>
    first
      | exact Or.inl rfl
      | exact Or.inr rfl
      | exact Or.inl (linearityStep_frequency orc inp s)

/-- The tuner/VCO dispatch tail of the loop keeps the smoothed frequency
or zeroes it. -/
theorem loopTail_frequency (orc : FloatOracles) (inp : LoopInput)
    (s : CalibState) :
    (loopTail orc inp s).1.frequency = s.frequency ∨
      (loopTail orc inp s).1.frequency = 0 := by
  unfold loopTail
  by_cases h1 : s.stage = CalibStage.TUNER ∨
      ((s.stage = CalibStage.VCO_1 ∨ s.stage = CalibStage.VCO_2) ∧
        s.stage_vco = CalibVcoStage.TUNER) <;>
    simp only [h1, if_true, if_false] <;>
    split_ifs <;>
    first
      | exact Or.inl rfl
      | exact Or.inl (tuner_frequency orc inp s)
      | exact vco_frequency orc inp _

/-- Run `Calibration::loop` over a sequence of loop inputs. -/
def loopRun (orc : FloatOracles) :
    List LoopInput → CalibState → CalibState
  | [], s => s
  | inp :: rest, s => loopRun orc rest (loop orc inp s).1

/-- C7: (a) if no edge has arrived for more than 2 000 000 µs, the loop
forces the smoothed frequency to zero; (b) if that timeout occurs while
the stage is `VCO_1`/`VCO_2` with sub-stage `LINEARITY` and the filtered
reading is still positive, the stage transitions to `ERROR`; (c) with
the stage at `ERROR`, an iteration only zeroes both DAC outputs and
changes nothing else; (d) hence from `ERROR`, no input sequence
(button presses included) ever changes the stage again, and every
subsequent iteration leaves both outputs at zero. -/
theorem C7_signal_loss_and_error_latch :
    (∀ (orc : FloatOracles) (inp : LoopInput) (s : CalibState),
      s.active = true → ¬ s.stage = CalibStage.ERROR →
      0 ≤ s.frequency → 0 ≤ s.frequency_raw →
      2000000 < u64sub inp.time_us s.time_last →
      (loop orc inp s).1.frequency = 0) ∧
    (∀ (orc : FloatOracles) (inp : LoopInput) (s : CalibState),
      s.active = true →
      (s.stage = CalibStage.VCO_1 ∨ s.stage = CalibStage.VCO_2) →
      s.stage_vco = CalibVcoStage.LINEARITY →
      0 < filteredFreq s →
      2000000 < u64sub inp.time_us s.time_last →
      (loop orc inp s).1.stage = CalibStage.ERROR ∧
        (loop orc inp s).1.frequency = 0) ∧
    (∀ (orc : FloatOracles) (inp : LoopInput) (s : CalibState),
      s.active = true → s.stage = CalibStage.ERROR →
      loop orc inp s = ({ s with dac_1 := 0, dac_2 := 0 }, [])) ∧
    (∀ (orc : FloatOracles) (inps : List LoopInput) (s : CalibState),
      s.active = true → s.stage = CalibStage.ERROR →
      (loopRun orc inps s).stage = CalibStage.ERROR ∧
        (inps ≠ [] → (loopRun orc inps s).dac_1 = 0 ∧
          (loopRun orc inps s).dac_2 = 0)) := by
  have herr_step : ∀ (orc : FloatOracles) (inp : LoopInput) (s : CalibState),
      s.active = true → s.stage = CalibStage.ERROR →
      loop orc inp s = ({ s with dac_1 := 0, dac_2 := 0 }, []) := by
    intro orc inp s hact herr
    simp only [loop]
    rw [if_neg (by simp [hact]), if_pos herr]
  refine ⟨?_, ?_, herr_step, ?_⟩
  · intro orc inp s hact herr hf hraw ht
    simp only [loop]
    rw [if_neg (by simp [hact]), if_neg herr]
    obtain ⟨hbf, hbraw, hbtl⟩ := btn_freq_proj inp s
    obtain ⟨hgf, hgraw, hgtl, _, _⟩ := gainPhase_proj inp (btn inp s)
    have h1 : 0 ≤ (gainPhase inp (btn inp s)).frequency := by
      rw [hgf]
      rcases hbf with h | h <;> rw [h]
      exact hf
    have h2 : 0 ≤ (gainPhase inp (btn inp s)).frequency_raw := by
      rw [hgraw, hbraw]; exact hraw
    have hfil_nonneg : 0 ≤ filteredFreq (gainPhase inp (btn inp s)) := by
      unfold filteredFreq
      split_ifs
      · exact h2
      · nlinarith
    have htl2 : (gainPhase inp (btn inp s)).time_last = s.time_last := by
      rw [hgtl, hbtl]
    by_cases hpos : 0 < filteredFreq (gainPhase inp (btn inp s))
    · rw [if_pos (show
          0 < filteredFreq (gainPhase inp (btn inp s)) ∧
            2000000 < u64sub inp.time_us
              (gainPhase inp (btn inp s)).time_last from
          ⟨hpos, by rw [htl2]; exact ht⟩)]
      by_cases hst : ((gainPhase inp (btn inp s)).stage = CalibStage.VCO_1 ∨
          (gainPhase inp (btn inp s)).stage = CalibStage.VCO_2) ∧
          (gainPhase inp (btn inp s)).stage_vco = CalibVcoStage.LINEARITY
      · rw [if_pos hst]
      · rw [if_neg hst]
        rcases loopTail_frequency orc inp
          { gainPhase inp (btn inp s) with
            frequency := 0, frequency_raw := 0 } with h | h
        · rw [h]
        · exact h
    · rw [if_neg (fun hcon => hpos hcon.1)]
      have hz : filteredFreq (gainPhase inp (btn inp s)) = 0 :=
        le_antisymm (not_lt.mp hpos) hfil_nonneg
      rcases loopTail_frequency orc inp
        { gainPhase inp (btn inp s) with
          frequency := filteredFreq (gainPhase inp (btn inp s)) } with h | h
      · rw [h]
        exact hz
      · exact h
  · intro orc inp s hact hvco hsub hfil ht
    simp only [loop]
    rw [if_neg (by simp [hact]),
      if_neg (show ¬ s.stage = CalibStage.ERROR by
        rcases hvco with h | h <;> rw [h] <;> exact fun hcon => nomatch hcon)]
    obtain ⟨hbs, hbsv, hbf, hbraw, hbtl⟩ := btn_vco_proj inp s hvco
    have hg1 : ¬ (btn inp s).stage = CalibStage.GAIN_1 := by
      rw [hbs]
      rcases hvco with h | h <;> rw [h] <;> exact fun hcon => nomatch hcon
    have hg2 : ¬ (btn inp s).stage = CalibStage.GAIN_2 := by
      rw [hbs]
      rcases hvco with h | h <;> rw [h] <;> exact fun hcon => nomatch hcon
    simp only [gainPhase]
    rw [if_neg hg1, if_neg hg2]
    have hfili : filteredFreq (btn inp s) = filteredFreq s := by
      unfold filteredFreq
      rw [hbf, hbraw]
    rw [if_pos (show 0 < filteredFreq (btn inp s) ∧
        2000000 < u64sub inp.time_us (btn inp s).time_last from
        ⟨by rw [hfili]; exact hfil, by rw [hbtl]; exact ht⟩)]
    rw [if_pos (show ((btn inp s).stage = CalibStage.VCO_1 ∨
        (btn inp s).stage = CalibStage.VCO_2) ∧
        (btn inp s).stage_vco = CalibVcoStage.LINEARITY from
        ⟨by rw [hbs]; exact hvco, by rw [hbsv]; exact hsub⟩)]
    exact ⟨rfl, rfl⟩
  · intro orc inps s
    induction inps generalizing s with
    | nil =>
      intro hact herr
      exact ⟨herr, fun hcon => absurd rfl hcon⟩
    | cons inp rest ih =>
      intro hact herr
      simp only [loopRun]
      rw [herr_step orc inp s hact herr]
      have hnext := ih { s with dac_1 := 0, dac_2 := 0 } hact herr
      refine ⟨hnext.1, fun _ => ?_⟩
      cases rest with
      | nil => exact ⟨rfl, rfl⟩
      | cons b bs => exact hnext.2 (by simp)

/-- Oracle returning zero everywhere, for concrete loop runs. -/
def orcZero : FloatOracles := ⟨fun _ => 0, fun _ => 0, fun _ _ => 0⟩

/-- A state latched in the terminal `ERROR` stage. -/
def sErr : CalibState := { initState with stage := CalibStage.ERROR }

/-- Witness for C7 at a concrete input: an `ERROR`-stage iteration only
zeroes the outputs. -/
theorem C7_signal_loss_and_error_latch_witness :
    loop orcZero (mkInput 5) sErr =
      ({ sErr with dac_1 := 0, dac_2 := 0 }, []) :=
  C7_signal_loss_and_error_latch.2.2.1 orcZero (mkInput 5) sErr rfl rfl

/-- C2 evaluated on the code: a long press in `PREP_RESET_VCO_1` leaves
channel 1's table untouched and instead clears channel 2's table to the
255 sentinels (persisting both), because the source's ternary tests
`stage == CalibStage::PREP_VCO_1`, which is false in the reset stages.
The stage still advances to `PREP_RESET_VCO_2` as the claim states. -/
theorem C2_reset_clears_channel_2 (dip : ℕ) (s : CalibState)
    (h : s.stage = CalibStage.PREP_RESET_VCO_1) :
    (btn_long_press dip s).calib_matrix_1 = s.calib_matrix_1 ∧
      (btn_long_press dip s).calib_matrix_2.note_min = 255 ∧
      (btn_long_press dip s).calib_matrix_2.note_max = 255 ∧
      (btn_long_press dip s).eeprom_matrix_1 = s.calib_matrix_1 ∧
      (btn_long_press dip s).eeprom_matrix_2.note_min = 255 ∧
      (btn_long_press dip s).stage = CalibStage.PREP_RESET_VCO_2 := by
  simp [btn_long_press, h, write_matrices]

/-- C2 witness state: both channels hold a valid stored calibration and
the stage shows the channel-1 reset prompt. -/
def sC2 : CalibState :=
  { initState with
    stage := CalibStage.PREP_RESET_VCO_1
    calib_matrix_1 := mC3cex
    calib_matrix_2 := mC3cex }

/-- Witness for C2 at the concrete failing input. -/
theorem C2_reset_clears_channel_2_witness :
    (btn_long_press 0 sC2).calib_matrix_1 = sC2.calib_matrix_1 ∧
      (btn_long_press 0 sC2).calib_matrix_2.note_min = 255 ∧
      (btn_long_press 0 sC2).calib_matrix_2.note_max = 255 ∧
      (btn_long_press 0 sC2).eeprom_matrix_1 = sC2.calib_matrix_1 ∧
      (btn_long_press 0 sC2).eeprom_matrix_2.note_min = 255 ∧
      (btn_long_press 0 sC2).stage = CalibStage.PREP_RESET_VCO_2 :=
  C2_reset_clears_channel_2 0 sC2 rfl

end ArduR2R